import Mathlib

/-!
# Task store of the ImGui task manager

Shallow embedding of `src/task.h`, `src/task.cpp`, `src/task_manager.h`,
`src/task_manager.cpp` and of the part of `src/main.cpp` that drives the store.

Modelling decisions.

* `std::unordered_map<std::string, V>` is an association list
  `List (String × V)`.  The list order stands for the (unspecified) iteration
  order of the container; `umap_assign` never creates a second entry for a key,
  `umap_erase` removes every entry of a key.
* The JSON library (`json.hpp`, nlohmann) is not part of the sources under
  study.  A document is the value `Json`; a data file is described by what the
  library makes of its text (`FileContent`): no bytes at all, text on which the
  parser raises `parse_error`, text that parses to a value, or text on which
  the parser raises another exception (a number too large).  Writing
  `j.dump(4)` is writing text that parses back to `j`; writing the two
  characters of the empty object is writing text that parses to the empty
  object.  An object of the library holds one entry per key; theorems that
  depend on it say so (`Nodup` of the keys).
* `std::string` is `String`.  A JSON number of any kind is `Json.num`: the
  code never looks at the value of a number.
* The file system is one file (`Disk`): absent or present with a content, and
  two flags telling whether opening it for reading (`std::ifstream`) and for
  writing (`std::ofstream`) succeeds; these are the `is_open()` tests of the
  source.
* The operating system calls of `generate_uuid` (`rand`, `CoCreateGuid`) are
  passed in as `OsCalls`.
-/

namespace TodoApp

/-! ## task.h -/

/-- Record `struct Task` of `task.h`: identifier, title, completion flag. -/
structure Task where
  id : String
  title : String
  done : Bool
deriving DecidableEq, Repr

/-! ## std::unordered_map -/

section UMap
variable {V : Type}

/-- Lookup `m.find(k)`: the value stored under `k`, if any. -/
def umap_find : List (String × V) → String → Option V
  | [], _ => none
  | (k1, v) :: rest, k => if k1 = k then some v else umap_find rest k

/-- Assignment `m[k] = v`: overwrite the entry of `k`, or add one. -/
def umap_assign : List (String × V) → String → V → List (String × V)
  | [], k, v => [(k, v)]
  | (k1, v1) :: rest, k, v =>
      if k1 = k then (k1, v) :: rest else (k1, v1) :: umap_assign rest k v

/-- Removal `m.erase(k)`. -/
def umap_erase (m : List (String × V)) (k : String) : List (String × V) :=
  m.filter (fun p => decide (p.1 ≠ k))

/-- Update through an iterator: `it = m.find(k); if (it != m.end()) it->second = f(it->second)`. -/
def umap_modify : List (String × V) → String → (V → V) → List (String × V)
  | [], _, _ => []
  | (k1, v1) :: rest, k, f =>
      if k1 = k then (k1, f v1) :: rest else (k1, v1) :: umap_modify rest k f

/-- Keys of the container, in iteration order. -/
def umap_keys (m : List (String × V)) : List String := m.map Prod.fst

end UMap

/-! ## JSON values and the data file -/

/-- JSON document as held by `nlohmann::json`. -/
inductive Json where
  | null : Json
  | bool (b : Bool) : Json
  | num (n : Int) : Json
  | str (s : String) : Json
  | arr (xs : List Json) : Json
  | obj (items : List (String × Json)) : Json

namespace Json

/-- Test `j.is_object()`. -/
def is_object : Json → Bool
  | obj _ => true
  | _ => false

/-- Test `j.contains(key)`: true only for an object that has the key. -/
def contains : Json → String → Bool
  | obj kvs, key => (umap_find kvs key).isSome
  | _, _ => false

/-- Read access `j[key]` on a value that contains the key. -/
def at_key : Json → String → Option Json
  | obj kvs, key => umap_find kvs key
  | _, _ => none

/-- Conversion to `std::string`; anything but a string raises `type_error`. -/
def to_std_string : Json → Except String String
  | str s => .ok s
  | _ => .error "type must be string"

/-- Conversion to `bool`; anything but a boolean raises `type_error`. -/
def to_bool : Json → Except String Bool
  | bool b => .ok b
  | _ => .error "type must be boolean"

end Json

/-- What the JSON library makes of the bytes of the data file: no byte at
all; text on which the parser raises `parse_error`; text that parses to a
value; text that follows the JSON grammar, of the given shape when each number
literal too large for a double is written as some `num`, on which the parser
raises `out_of_range` (number overflow), an exception that is not a
`parse_error`. -/
inductive FileContent where
  | empty : FileContent
  | malformed (text : String) : FileContent
  | json (j : Json) : FileContent
  | out_of_range (shape : Json) : FileContent

/-- The text written by the statement `file << "{}"`. -/
def empty_object_text : FileContent := FileContent.json (Json.obj [])

/-- The data file and the outcome of opening it. -/
structure Disk where
  content : Option FileContent
  can_read : Bool
  can_write : Bool

/-- Statements `std::ofstream f(filename); f << text;` with no `is_open` test:
nothing happens when the stream cannot be opened. -/
def Disk.write (d : Disk) (c : FileContent) : Disk :=
  if d.can_write then { d with content := some c } else d

/-! ## task_manager.h -/

/-- State of `class TaskManager` (the file name is the one file of `Disk`). -/
structure TaskManager where
  tasks : List (String × Task)
  task_selection_states : List (String × Bool)
  com_initialized : Bool

/-- Value of `GUID` as filled in by `CoCreateGuid`. -/
structure GUID where
  Data1 : Nat
  Data2 : Nat
  Data3 : Nat
  Data4 : Fin 8 → Nat

/-- Results of the operating system calls made by one `generate_uuid`. -/
structure OsCalls where
  rand : Nat
  CoCreateGuid : Option GUID

/-- Conversion `%0wX` of `snprintf`: upper-case hexadecimal, zero padded to
`w` characters. -/
def fmt_hex (w n : Nat) : String :=
  let ds := (Nat.toDigits 16 n).map Char.toUpper
  String.mk (List.replicate (w - ds.length) '0' ++ ds)

/-- The call `snprintf(buffer, 37, "%08lX-%04X-%04X-%02X%02X-%02X%02X%02X%02X%02X%02X", ...)`. -/
def format_guid (g : GUID) : String :=
  let b (i : Fin 8) : String := fmt_hex 2 (g.Data4 i % 2 ^ 8)
  let s := fmt_hex 8 (g.Data1 % 2 ^ 32) ++ "-" ++ fmt_hex 4 (g.Data2 % 2 ^ 16) ++ "-"
    ++ fmt_hex 4 (g.Data3 % 2 ^ 16) ++ "-" ++ b 0 ++ b 1 ++ "-"
    ++ b 2 ++ b 3 ++ b 4 ++ b 5 ++ b 6 ++ b 7
  String.mk (s.data.take 36)

namespace TaskManager

/-- One iteration of the loop of `load` over `j.items()`.  In
`tasks[id] = Task(id, task_data["title"], task_data["done"])` the right-hand
side is evaluated before `tasks[id]` (C++17 order of assignment; the source
needs C++17 for its structured bindings and `std::filesystem`), so a conversion
that throws `json::exception`, caught by the inner handler, leaves `tasks` as
it was. -/
def load_entry (tasks : List (String × Task)) (entry : String × Json) : List (String × Task) :=
  let id := entry.1
  let task_data := entry.2
  if task_data.contains "title" && task_data.contains "done" then
    match task_data.at_key "title", task_data.at_key "done" with
    | some jt, some jd =>
        match jt.to_std_string, jd.to_bool with
        | .ok title, .ok done => umap_assign tasks id (Task.mk id title done)
        | _, _ => tasks
    | _, _ => tasks
  else tasks

/-- Method `TaskManager::load`.  The parser's `parse_error` goes to the first
handler (the file is reset, the tasks cleared); any other exception of the
parse goes to the handler for `std::exception`, which only logs: the tasks
stay cleared and the file is left as it is. -/
def load (tm : TaskManager) (d : Disk) : TaskManager × Disk :=
  let cleared : TaskManager := { tm with tasks := [] }
  match d.content with
  | none =>
      if d.can_write then (cleared, { d with content := some empty_object_text })
      else (cleared, d)
  | some c =>
      if d.can_read then
        match c with
        | FileContent.empty => (cleared, d.write empty_object_text)
        | FileContent.malformed _ => (cleared, d.write empty_object_text)
        | FileContent.json (Json.obj items) =>
            ({ tm with tasks := items.foldl load_entry [] }, d)
        | FileContent.json _ => (cleared, d.write empty_object_text)
        | FileContent.out_of_range _ => (cleared, d)
      else (cleared, d)

/-- The JSON object built by `save`: `j[id] = {{"title", ...}, {"done", ...}}`
for each entry of `tasks`. -/
def to_json (tasks : List (String × Task)) : Json :=
  Json.obj (tasks.foldl
    (fun j e => umap_assign j e.1
      (Json.obj [("title", Json.str e.2.title), ("done", Json.bool e.2.done)])) [])

/-- Method `TaskManager::save`. -/
def save (tm : TaskManager) (d : Disk) : Disk :=
  if d.can_write then { d with content := some (FileContent.json (to_json tm.tasks)) } else d

/-- Method `TaskManager::generate_uuid`. -/
def generate_uuid (tm : TaskManager) (os : OsCalls) : String :=
  if !tm.com_initialized then "fallback-uuid-" ++ toString os.rand
  else
    match os.CoCreateGuid with
    | none => "error-uuid-" ++ toString os.rand
    | some g => format_guid g

/-- Method `TaskManager::add_task`. -/
def add_task (tm : TaskManager) (d : Disk) (title : String) (os : OsCalls) : TaskManager × Disk :=
  let task_id := tm.generate_uuid os
  let tm1 : TaskManager := { tm with tasks := umap_assign tm.tasks task_id (Task.mk task_id title false) }
  (tm1, tm1.save d)

/-- Method `TaskManager::delete_task`. -/
def delete_task (tm : TaskManager) (d : Disk) (task_id : String) : TaskManager × Disk :=
  let tm1 : TaskManager := { tm with tasks := umap_erase tm.tasks task_id }
  (tm1, tm1.save d)

/-- Method `TaskManager::toggle_task_status`. -/
def toggle_task_status (tm : TaskManager) (d : Disk) (task_id : String) : TaskManager × Disk :=
  match umap_find tm.tasks task_id with
  | some _ =>
      let tm1 : TaskManager :=
        { tm with tasks := umap_modify tm.tasks task_id (fun t => { t with done := !t.done }) }
      (tm1, tm1.save d)
  | none => (tm, d)

/-- Method `TaskManager::contains_task`. -/
def contains_task (tm : TaskManager) (task_id : String) : Bool :=
  (umap_find tm.tasks task_id).isSome

/-- Method `TaskManager::is_empty`. -/
def is_empty (tm : TaskManager) : Bool := tm.tasks.isEmpty

/-- Method `TaskManager::get_all_tasks`. -/
def get_all_tasks (tm : TaskManager) : List Task := tm.tasks.map Prod.snd

/-- Method `TaskManager::get_uncompleted_tasks`. -/
def get_uncompleted_tasks (tm : TaskManager) : List Task :=
  (tm.tasks.filter (fun e => !e.2.done)).map Prod.snd

/-- Method `TaskManager::get_completed_tasks`. -/
def get_completed_tasks (tm : TaskManager) : List Task :=
  (tm.tasks.filter (fun e => e.2.done)).map Prod.snd

/-- Method `TaskManager::get_task_info`. -/
def get_task_info (tm : TaskManager) (task_id : String) : Task :=
  match umap_find tm.tasks task_id with
  | some t => t
  | none => Task.mk "" "" false

/-- Method `TaskManager::init_selection_states`. -/
def init_selection_states (tm : TaskManager) : TaskManager :=
  { tm with task_selection_states :=
      tm.tasks.foldl (fun sel e => umap_assign sel e.1 false) [] }

/-- Method `TaskManager::toggle_task_selection`. -/
def toggle_task_selection (tm : TaskManager) (task_id : String) : TaskManager :=
  match umap_find tm.task_selection_states task_id with
  | some b => { tm with task_selection_states := umap_assign tm.task_selection_states task_id (!b) }
  | none => { tm with task_selection_states := umap_assign tm.task_selection_states task_id true }

/-- Method `TaskManager::is_task_selected`. -/
def is_task_selected (tm : TaskManager) (task_id : String) : Bool :=
  match umap_find tm.task_selection_states task_id with
  | some b => b
  | none => false

/-- Method `TaskManager::clear_selection`. -/
def clear_selection (tm : TaskManager) : TaskManager :=
  { tm with task_selection_states := tm.task_selection_states.map (fun e => (e.1, false)) }

/-- Method `TaskManager::get_selected_task_ids`. -/
def get_selected_task_ids (tm : TaskManager) : List String :=
  (tm.task_selection_states.filter (fun e => e.2)).map Prod.fst

/-- Method `TaskManager::has_selection`. -/
def has_selection (tm : TaskManager) : Bool :=
  tm.task_selection_states.any (fun e => e.2)

/-- Constructor `TaskManager::TaskManager`: `com_ok` is `SUCCEEDED(hr)` of
`CoInitializeEx`; the constructor ends with `load()`. -/
def construct (com_ok : Bool) (d : Disk) : TaskManager × Disk :=
  load { tasks := [], task_selection_states := [], com_initialized := com_ok } d

end TaskManager

/-! ## Sequences of calls -/

/-- A call of one of the public operations of the store. -/
inductive Op where
  | add_task (title : String) (os : OsCalls) : Op
  | delete_task (task_id : String) : Op
  | toggle_task_status (task_id : String) : Op
  | init_selection_states : Op
  | toggle_task_selection (task_id : String) : Op
  | clear_selection : Op

/-- Effect of one call on the store and the data file. -/
def step (s : TaskManager × Disk) : Op → TaskManager × Disk
  | Op.add_task title os => s.1.add_task s.2 title os
  | Op.delete_task task_id => s.1.delete_task s.2 task_id
  | Op.toggle_task_status task_id => s.1.toggle_task_status s.2 task_id
  | Op.init_selection_states => (s.1.init_selection_states, s.2)
  | Op.toggle_task_selection task_id => (s.1.toggle_task_selection task_id, s.2)
  | Op.clear_selection => (s.1.clear_selection, s.2)

/-- Effect of a sequence of calls, first call first. -/
def run (s : TaskManager × Disk) (ops : List Op) : TaskManager × Disk :=
  ops.foldl step s

/-- Calls that do not themselves put the selection outside the existing
tasks: `toggle_task_selection(id)` for an existing task or for an id that is
selected (which it unselects), `delete_task(id)` for an id that is not among
the selected ids, and every other call. -/
def Op.admissible (tm : TaskManager) : Op → Bool
  | Op.toggle_task_selection task_id => tm.contains_task task_id || tm.is_task_selected task_id
  | Op.delete_task task_id => decide (task_id ∉ tm.get_selected_task_ids)
  | _ => true

/-- Calls that unselect everything. -/
def Op.resets_selection : Op → Bool
  | Op.init_selection_states => true
  | Op.clear_selection => true
  | _ => false

/-- The sequence is empty or ends with `init_selection_states()` or
`clear_selection()`. -/
def at_reset (pre : List Op) : Bool :=
  match pre.getLast? with
  | none => true
  | some op => op.resets_selection

/-- Every call of the sequence is admissible in the state it is made in. -/
def all_admissible (s : TaskManager × Disk) : List Op → Bool
  | [] => true
  | op :: ops => op.admissible s.1 && all_admissible (step s op) ops

/-- Selected ids are ids of existing tasks. -/
def selection_within_tasks (tm : TaskManager) : Prop :=
  ∀ task_id, task_id ∈ tm.get_selected_task_ids → tm.contains_task task_id = true

/-- Every entry of the task mapping holds a task whose id is its key, and no
key occurs twice. -/
def well_keyed (tasks : List (String × Task)) : Prop :=
  (umap_keys tasks).Nodup ∧ ∀ e, e ∈ tasks → e.2.id = e.1

/-- The task that one iteration of the loop of `load` stores for an entry, if
it stores one: the entry is an object whose `title` is a string and whose
`done` is a boolean. -/
def entry_task (id : String) (data : Json) : Option Task :=
  match data.at_key "title", data.at_key "done" with
  | some (Json.str title), some (Json.bool done) => some (Task.mk id title done)
  | _, _ => none

/-! ## main.cpp

One pass of the main loop, as far as it touches the store.  The toolkit
(Dear ImGui) is not part of the sources under study: the values its calls
return during a frame are inputs (`FrameInput`), the popups it keeps open are
the list `open_popups`; a button drawn between `BeginDisabled` and
`EndDisabled` does not report a click; `CloseCurrentPopup` does not stop the
rest of the frame.  `Ui.calls` records, oldest first, the mutating calls made
on the store. -/

/-- Record `struct AppState` of `main.cpp`. -/
structure AppState where
  show_add_task_modal : Bool
  show_mark_task_modal : Bool
  show_mark_delete_task_modal : Bool
  task_input_buffer : String
  task_input_focused : Bool

/-- Values returned by the toolkit inside one task selection dialog during a
frame: `IsKeyPressed(ImGuiKey_Escape)`, `Checkbox` for the task of each id,
and clicks on the confirm and cancel buttons. -/
structure ModalInput where
  escape : Bool
  checkbox : String → Bool
  confirm : Bool
  cancel : Bool

/-- Values returned by the toolkit inside the add-task dialog during a frame:
the Escape key, the text the field writes into the buffer (if any), the value
of `InputText` (Enter pressed), clicks on the two buttons; and the results of
the operating system calls of the `add_task` of each path. -/
structure AddInput where
  escape : Bool
  typed : Option String
  enter : Bool
  confirm : Bool
  cancel : Bool
  os_enter : OsCalls
  os_confirm : OsCalls

/-- Values returned by the toolkit during one frame. -/
structure FrameInput where
  mark_task_button : Bool
  add_new_task_button : Bool
  delete_task_button : Bool
  mark : ModalInput
  delete : ModalInput
  add : AddInput

/-- State of the main loop between two statements. -/
structure Ui where
  store : TaskManager × Disk
  state : AppState
  open_popups : List String
  calls : List Op

/-- A mutating call on `task_manager`, recorded in `calls`. -/
def Ui.call (u : Ui) (op : Op) : Ui :=
  { u with store := step u.store op, calls := u.calls ++ [op] }

/-- Toolkit call `ImGui::OpenPopup(title)`. -/
def OpenPopup (u : Ui) (title : String) : Ui :=
  { u with open_popups := title :: u.open_popups }

/-- Toolkit call `ImGui::CloseCurrentPopup()` inside the popup `title`. -/
def CloseCurrentPopup (u : Ui) (title : String) : Ui :=
  { u with open_popups := u.open_popups.filter (fun t => decide (t ≠ title)) }

/-- Toolkit call `ImGui::BeginPopupModal(title, ...)`. -/
def BeginPopupModal (u : Ui) (title : String) : Bool :=
  decide (title ∈ u.open_popups)

/-- One of the two checkbox loops of `DrawTaskSelectionModal`. -/
def checkbox_loop (inp : ModalInput) (tasks : List Task) (u : Ui) : Ui :=
  tasks.foldl
    (fun v task => if inp.checkbox task.id then v.call (Op.toggle_task_selection task.id) else v)
    u

/-- Function `DrawTaskSelectionModal` of `main.cpp`; the result is the
returned value, the value left in `show_modal_flag`, and the state. -/
def DrawTaskSelectionModal (title : String) (inp : ModalInput) (show_modal_flag : Bool)
    (u : Ui) : Bool × Bool × Ui :=
  let u1 := if show_modal_flag then (OpenPopup u title).call Op.init_selection_states else u
  let flag1 := if show_modal_flag then false else show_modal_flag
  if BeginPopupModal u1 title then
    let u2 := if inp.escape then CloseCurrentPopup (u1.call Op.clear_selection) title else u1
    let u3 := checkbox_loop inp u2.store.1.get_uncompleted_tasks u2
    let u4 := checkbox_loop inp u3.store.1.get_completed_tasks u3
    let has_selection := u4.store.1.has_selection
    let confirmed := inp.confirm && has_selection
    let u5 := if confirmed then CloseCurrentPopup u4 title else u4
    let u6 := if inp.cancel then CloseCurrentPopup (u5.call Op.clear_selection) title else u5
    (confirmed, flag1, u6)
  else (false, flag1, u1)

/-- The three dialog buttons of the control panel of `main`. -/
def control_panel (inp : FrameInput) (u : Ui) : Ui :=
  let s1 := if inp.mark_task_button then { u.state with show_mark_task_modal := true }
    else u.state
  let s2 := if inp.add_new_task_button then
      { s1 with show_add_task_modal := true, task_input_buffer := "",
                task_input_focused := true }
    else s1
  let s3 := if inp.delete_task_button then { s2 with show_mark_delete_task_modal := true }
    else s2
  { u with state := s3 }

/-- Part of `main` under the comment "Handle mark task modal". -/
def handle_mark_task_modal (inp : ModalInput) (u : Ui) : Ui :=
  let u1 := if u.state.show_mark_task_modal then
      { OpenPopup u "Mark Tasks" with state := { u.state with show_mark_task_modal := false } }
    else u
  let r := DrawTaskSelectionModal "Mark Tasks" inp u1.state.show_mark_task_modal u1
  let u2 : Ui := { r.2.2 with state := { r.2.2.state with show_mark_task_modal := r.2.1 } }
  if r.1 then
    (u2.store.1.get_selected_task_ids.foldl
      (fun v task_id => v.call (Op.toggle_task_status task_id)) u2).call Op.clear_selection
  else u2

/-- Part of `main` under the comment "Handle delete task modal". -/
def handle_delete_task_modal (inp : ModalInput) (u : Ui) : Ui :=
  let u1 := if u.state.show_mark_delete_task_modal then
      { OpenPopup u "Delete Tasks" with
        state := { u.state with show_mark_delete_task_modal := false } }
    else u
  let r := DrawTaskSelectionModal "Delete Tasks" inp u1.state.show_mark_delete_task_modal u1
  let u2 : Ui :=
    { r.2.2 with state := { r.2.2.state with show_mark_delete_task_modal := r.2.1 } }
  if r.1 then
    (u2.store.1.get_selected_task_ids.foldl
      (fun v task_id => v.call (Op.delete_task task_id)) u2).call Op.clear_selection
  else u2

/-- Toolkit call `ImGui::InputText("##task_input", state.task_input_buffer, ...)`
as far as the buffer goes: the field may write a text into the buffer. -/
def InputText (inp : AddInput) (u : Ui) : Ui :=
  match inp.typed with
  | some text => { u with state := { u.state with task_input_buffer := text } }
  | none => u

/-- The add-task dialog from `InputText` on: the text field with its Enter
path, the Confirm button (disabled while the buffer is empty) and the Cancel
button. -/
def add_dialog_submit (inp : AddInput) (u : Ui) : Ui :=
  let u4 := InputText inp u
  let u5 := if inp.enter then
      (if u4.state.task_input_buffer.length > 0 then
        CloseCurrentPopup (u4.call (Op.add_task u4.state.task_input_buffer inp.os_enter))
          "Add New Task"
      else u4)
    else u4
  let disabled := u5.state.task_input_buffer.length == 0
  let u6 := if inp.confirm && !disabled then
      CloseCurrentPopup (u5.call (Op.add_task u5.state.task_input_buffer inp.os_confirm))
        "Add New Task"
    else u5
  if inp.cancel then CloseCurrentPopup u6 "Add New Task" else u6

/-- Part of `main` under the comment "Handle add task modal". -/
def handle_add_task_modal (inp : AddInput) (u : Ui) : Ui :=
  let u1 := if u.state.show_add_task_modal then
      { OpenPopup u "Add New Task" with state := { u.state with show_add_task_modal := false } }
    else u
  if BeginPopupModal u1 "Add New Task" then
    let u2 := if inp.escape then
        { CloseCurrentPopup u1 "Add New Task" with
          state := { u1.state with task_input_buffer := "" } }
      else u1
    let u3 := if u2.state.task_input_focused then
        { u2 with state := { u2.state with task_input_focused := false } }
      else u2
    add_dialog_submit inp u3
  else u1

/-- One pass of the loop of `main`. -/
def main_frame (inp : FrameInput) (u : Ui) : Ui :=
  handle_add_task_modal inp.add
    (handle_delete_task_modal inp.delete
      (handle_mark_task_modal inp.mark (control_panel inp u)))

/-- Number of `init_selection_states()` calls in a record of calls. -/
def init_calls (calls : List Op) : Nat :=
  calls.countP (fun op => match op with
    | Op.init_selection_states => true
    | _ => false)

/-- Titles passed to `add_task` in a record of calls. -/
def added_titles (calls : List Op) : List String :=
  calls.filterMap (fun op => match op with
    | Op.add_task title _ => some title
    | _ => none)

/-- White space in the sense of `isspace` of the C locale. -/
def is_space (c : Char) : Bool :=
  c = ' ' || c = Char.ofNat 9 || c = Char.ofNat 10 || c = Char.ofNat 11 ||
    c = Char.ofNat 12 || c = Char.ofNat 13

/-- Requirement of the specification on a title: non-empty, without leading
or trailing white space. -/
def is_trimmed_title (title : String) : Bool :=
  match title.data with
  | [] => false
  | c :: rest => !is_space c && !is_space ((c :: rest).getLast (List.cons_ne_nil c rest))

/-- A selection dialog in which the user does nothing during the frame. -/
def idle_modal : ModalInput := ModalInput.mk false (fun _ => false) false false

/-- An add-task dialog in which the user does nothing during the frame. -/
def idle_add : AddInput :=
  AddInput.mk false none false false false (OsCalls.mk 7 none) (OsCalls.mk 9 none)

/-- A frame in which the user does nothing. -/
def idle_frame : FrameInput := FrameInput.mk false false false idle_modal idle_modal idle_add

/-- The main loop before its first frame: the store built by the constructor
over a readable file with one task, no flag set, no popup open, no call
recorded. -/
def start_ui : Ui :=
  Ui.mk
    (TaskManager.construct true (Disk.mk (some (FileContent.json (Json.obj
      [("a", Json.obj [("title", Json.str "Buy milk"), ("done", Json.bool false)])])))
      true true))
    (AppState.mk false false false "" false) [] []

/-! ## Lemmas on the association-list container -/

section UMapLemmas
variable {V : Type}

theorem umap_find_assign_self (m : List (String × V)) (k : String) (v : V) :
    umap_find (umap_assign m k v) k = some v := by
  induction m with
  | nil => simp [umap_assign, umap_find]
  | cons e rest ih =>
      obtain ⟨k1, v1⟩ := e
      by_cases h : k1 = k
      · simp [umap_assign, umap_find, h]
      · simp [umap_assign, umap_find, h, ih]

theorem umap_find_assign_ne (m : List (String × V)) (k k2 : String) (v : V) (hne : k2 ≠ k) :
    umap_find (umap_assign m k v) k2 = umap_find m k2 := by
  induction m with
  | nil =>
      have h : ¬ k = k2 := fun h => hne h.symm
      simp [umap_assign, umap_find, h]
  | cons e rest ih =>
      obtain ⟨k1, v1⟩ := e
      by_cases h : k1 = k
      · subst h
        have h2 : ¬ k1 = k2 := fun h => hne h.symm
        simp [umap_assign, umap_find, h2]
      · by_cases h3 : k1 = k2
        · subst h3
          simp [umap_assign, umap_find, h]
        · simp [umap_assign, umap_find, h, h3, ih]

theorem umap_find_erase_self (m : List (String × V)) (k : String) :
    umap_find (umap_erase m k) k = none := by
  induction m with
  | nil => simp [umap_erase, umap_find]
  | cons e rest ih =>
      obtain ⟨k1, v1⟩ := e
      by_cases h : k1 = k
      · simpa [umap_erase, List.filter_cons, h] using ih
      · simpa [umap_erase, List.filter_cons, h, umap_find] using ih

theorem umap_find_erase_ne (m : List (String × V)) (k k2 : String) (hne : k2 ≠ k) :
    umap_find (umap_erase m k) k2 = umap_find m k2 := by
  induction m with
  | nil => simp [umap_erase, umap_find]
  | cons e rest ih =>
      obtain ⟨k1, v1⟩ := e
      by_cases h : k1 = k
      · subst h
        have h2 : ¬ k1 = k2 := fun h => hne h.symm
        simpa [umap_erase, List.filter_cons, umap_find, h2] using ih
      · by_cases h3 : k1 = k2
        · subst h3
          simp [umap_erase, List.filter_cons, h, umap_find]
        · simpa [umap_erase, List.filter_cons, h, umap_find, h3] using ih

theorem umap_erase_absent (m : List (String × V)) (k : String) (h : umap_find m k = none) :
    umap_erase m k = m := by
  induction m with
  | nil => simp [umap_erase]
  | cons e rest ih =>
      obtain ⟨k1, v1⟩ := e
      by_cases h1 : k1 = k
      · simp [umap_find, h1] at h
      · simp only [umap_find, h1, if_false] at h
        have h2 := ih h
        simp only [umap_erase] at h2
        simp only [umap_erase, List.filter_cons, h1, ne_eq, not_false_eq_true, decide_True,
          if_true]
        rw [h2]

theorem umap_find_modify_self (m : List (String × V)) (k : String) (f : V → V) :
    umap_find (umap_modify m k f) k = (umap_find m k).map f := by
  induction m with
  | nil => simp [umap_modify, umap_find]
  | cons e rest ih =>
      obtain ⟨k1, v1⟩ := e
      by_cases h : k1 = k
      · simp [umap_modify, umap_find, h]
      · simp [umap_modify, umap_find, h, ih]

theorem umap_find_modify_ne (m : List (String × V)) (k k2 : String) (f : V → V) (hne : k2 ≠ k) :
    umap_find (umap_modify m k f) k2 = umap_find m k2 := by
  induction m with
  | nil => simp [umap_modify, umap_find]
  | cons e rest ih =>
      obtain ⟨k1, v1⟩ := e
      by_cases h : k1 = k
      · subst h
        have h2 : ¬ k1 = k2 := fun h => hne h.symm
        simp [umap_modify, umap_find, h2]
      · by_cases h3 : k1 = k2
        · subst h3
          simp [umap_modify, umap_find, h]
        · simp [umap_modify, umap_find, h, h3, ih]

theorem umap_keys_modify (m : List (String × V)) (k : String) (f : V → V) :
    umap_keys (umap_modify m k f) = umap_keys m := by
  induction m with
  | nil => simp [umap_modify, umap_keys]
  | cons e rest ih =>
      obtain ⟨k1, v1⟩ := e
      by_cases h : k1 = k
      · simp [umap_modify, umap_keys, h]
      · simp only [umap_keys] at ih
        simp [umap_modify, umap_keys, h, ih]

theorem umap_modify_modify (m : List (String × V)) (k : String) (f g : V → V) :
    umap_modify (umap_modify m k f) k g = umap_modify m k (fun v => g (f v)) := by
  induction m with
  | nil => simp [umap_modify]
  | cons e rest ih =>
      obtain ⟨k1, v1⟩ := e
      by_cases h : k1 = k
      · simp [umap_modify, h]
      · simp [umap_modify, h, ih]

theorem umap_modify_id (m : List (String × V)) (k : String) (f : V → V) (hf : ∀ v, f v = v) :
    umap_modify m k f = m := by
  induction m with
  | nil => simp [umap_modify]
  | cons e rest ih =>
      obtain ⟨k1, v1⟩ := e
      by_cases h : k1 = k
      · simp [umap_modify, h, hf]
      · simp [umap_modify, h, ih]

theorem umap_find_isSome_iff (m : List (String × V)) (k : String) :
    (umap_find m k).isSome = true ↔ k ∈ umap_keys m := by
  induction m with
  | nil => simp [umap_find, umap_keys]
  | cons e rest ih =>
      obtain ⟨k1, v1⟩ := e
      by_cases h : k1 = k
      · simp [umap_find, umap_keys, h]
      · have h2 : ¬ k = k1 := fun h3 => h h3.symm
        simp only [umap_keys] at ih
        simp [umap_find, umap_keys, h, h2, ih]

theorem umap_find_mem (m : List (String × V)) (k : String) (v : V)
    (h : umap_find m k = some v) : (k, v) ∈ m := by
  induction m with
  | nil => simp [umap_find] at h
  | cons e rest ih =>
      obtain ⟨k1, v1⟩ := e
      by_cases h1 : k1 = k
      · simp [umap_find, h1] at h
        simp [h1, h]
      · simp only [umap_find, h1, if_false] at h
        exact List.mem_cons_of_mem _ (ih h)

theorem umap_assign_absent (m : List (String × V)) (k : String) (v : V)
    (h : k ∉ umap_keys m) : umap_assign m k v = m ++ [(k, v)] := by
  induction m with
  | nil => simp [umap_assign]
  | cons e rest ih =>
      obtain ⟨k1, v1⟩ := e
      simp only [umap_keys, List.map_cons, List.mem_cons, not_or] at h
      have h1 : ¬ k1 = k := fun h2 => h.1 h2.symm
      have := ih (by simpa [umap_keys] using h.2)
      simp [umap_assign, h1, this]

theorem umap_keys_assign_present (m : List (String × V)) (k : String) (v : V)
    (h : k ∈ umap_keys m) : umap_keys (umap_assign m k v) = umap_keys m := by
  induction m with
  | nil => simp [umap_keys] at h
  | cons e rest ih =>
      obtain ⟨k1, v1⟩ := e
      by_cases h1 : k1 = k
      · simp [umap_assign, umap_keys, h1]
      · have h2 : ¬ k = k1 := fun h3 => h1 h3.symm
        simp only [umap_keys, List.map_cons, List.mem_cons, h2, false_or] at h
        have := ih (by simpa [umap_keys] using h)
        simp only [umap_keys] at this
        simp [umap_assign, umap_keys, h1, this]

theorem umap_keys_assign_nodup (m : List (String × V)) (k : String) (v : V)
    (h : (umap_keys m).Nodup) : (umap_keys (umap_assign m k v)).Nodup := by
  by_cases hk : k ∈ umap_keys m
  · rw [umap_keys_assign_present m k v hk]; exact h
  · rw [umap_assign_absent m k v hk]
    simp only [umap_keys, List.map_append, List.map_cons, List.map_nil]
    simp only [umap_keys] at h hk
    refine List.Nodup.append h (by simp) ?_
    intro a ha hb
    simp only [List.mem_singleton] at hb
    exact hk (hb ▸ ha)

theorem umap_keys_erase_nodup (m : List (String × V)) (k : String)
    (h : (umap_keys m).Nodup) : (umap_keys (umap_erase m k)).Nodup := by
  simp only [umap_keys, umap_erase] at *
  exact List.Nodup.sublist (List.Sublist.map _ (List.filter_sublist _)) h

theorem umap_mem_assign (m : List (String × V)) (k : String) (v : V) (e : String × V)
    (h : e ∈ umap_assign m k v) : e = (k, v) ∨ e ∈ m := by
  induction m with
  | nil => simpa [umap_assign] using h
  | cons x rest ih =>
      obtain ⟨k1, v1⟩ := x
      by_cases h1 : k1 = k
      · simp only [umap_assign, h1, if_true, List.mem_cons] at h
        rcases h with h | h
        · exact Or.inl h
        · exact Or.inr (List.mem_cons_of_mem _ h)
      · simp only [umap_assign, h1, if_false, List.mem_cons] at h
        rcases h with h | h
        · exact Or.inr (by simp [h])
        · rcases ih h with h2 | h2
          · exact Or.inl h2
          · exact Or.inr (List.mem_cons_of_mem _ h2)

theorem umap_mem_modify (m : List (String × V)) (k : String) (f : V → V) (e : String × V)
    (h : e ∈ umap_modify m k f) : e ∈ m ∨ ∃ v, (e.1, v) ∈ m ∧ e.2 = f v := by
  induction m with
  | nil => simp [umap_modify] at h
  | cons x rest ih =>
      obtain ⟨k1, v1⟩ := x
      by_cases h1 : k1 = k
      · simp only [umap_modify, h1, if_true, List.mem_cons] at h
        rcases h with h | h
        · right
          refine ⟨v1, ?_, ?_⟩
          · rw [h, h1]; exact List.mem_cons_self _ _
          · rw [h]
        · exact Or.inl (List.mem_cons_of_mem _ h)
      · simp only [umap_modify, h1, if_false, List.mem_cons] at h
        rcases h with h | h
        · exact Or.inl (by simp [h])
        · rcases ih h with h2 | ⟨v, hv, hf⟩
          · exact Or.inl (List.mem_cons_of_mem _ h2)
          · exact Or.inr ⟨v, List.mem_cons_of_mem _ hv, hf⟩

end UMapLemmas

/-! ## Queries: the partition into uncompleted and completed tasks -/

/-- C2: the uncompleted and the completed tasks of any store (so of every
reachable one) are disjoint, together they are exactly the tasks of
`get_all_tasks` (as sets, and even counted with multiplicity), every
uncompleted task has `done = false` and every completed task has `done = true`. -/
theorem partition_uncompleted_completed (tm : TaskManager) :
    (∀ t, t ∈ tm.get_all_tasks ↔ (t ∈ tm.get_uncompleted_tasks ∨ t ∈ tm.get_completed_tasks)) ∧
    (∀ t, ¬ (t ∈ tm.get_uncompleted_tasks ∧ t ∈ tm.get_completed_tasks)) ∧
    (∀ t, t ∈ tm.get_uncompleted_tasks → t.done = false) ∧
    (∀ t, t ∈ tm.get_completed_tasks → t.done = true) ∧
    (tm.get_uncompleted_tasks ++ tm.get_completed_tasks).Perm tm.get_all_tasks := by
  have hU : ∀ t, t ∈ tm.get_uncompleted_tasks → t.done = false := by
    intro t ht
    simp only [TaskManager.get_uncompleted_tasks, List.mem_map, List.mem_filter] at ht
    obtain ⟨e, ⟨_, he⟩, rfl⟩ := ht
    simpa using he
  have hC : ∀ t, t ∈ tm.get_completed_tasks → t.done = true := by
    intro t ht
    simp only [TaskManager.get_completed_tasks, List.mem_map, List.mem_filter] at ht
    obtain ⟨e, ⟨_, he⟩, rfl⟩ := ht
    exact he
  have hP : (tm.get_uncompleted_tasks ++ tm.get_completed_tasks).Perm tm.get_all_tasks := by
    simp only [TaskManager.get_uncompleted_tasks, TaskManager.get_completed_tasks,
      TaskManager.get_all_tasks, ← List.map_append]
    refine List.Perm.map _ ?_
    have h := List.filter_append_perm (fun e : String × Task => e.2.done) tm.tasks
    refine List.Perm.trans List.perm_append_comm ?_
    simpa using h
  refine ⟨?_, ?_, hU, hC, hP⟩
  · intro t
    rw [← List.mem_append]
    exact (hP.mem_iff).symm
  · rintro t ⟨h1, h2⟩
    have a := hU t h1
    have b := hC t h2
    rw [a] at b
    exact Bool.noConfusion b

/-! ## add_task -/

theorem fmt_hex_length_pos (w n : Nat) : 0 < (fmt_hex w n).length := by
  have h : (Nat.toDigits 16 n) ≠ [] := by
    unfold Nat.toDigits
    unfold Nat.toDigitsCore
    by_cases hn : n / 16 = 0
    · simp [hn]
    · simp only [hn, if_false]
      intro hc
      have hl := congrArg List.length hc
      rw [Nat.toDigitsCore_lens_eq] at hl
      simp at hl
  have h2 : 0 < (Nat.toDigits 16 n).length := List.length_pos.mpr h
  simp only [fmt_hex, String.length, List.length_append, List.length_map, List.length_replicate]
  omega

theorem take_ne_empty (s : String) (h : 0 < s.length) : String.mk (s.data.take 36) ≠ "" := by
  intro hc
  have h1 : (String.mk (s.data.take 36)).data.length = 0 := by rw [hc]; rfl
  simp only [List.length_take, String.length] at h1 h
  omega

theorem format_guid_ne_empty (g : GUID) : format_guid g ≠ "" := by
  unfold format_guid
  apply take_ne_empty
  simp only [String.length_append]
  have h8 := fmt_hex_length_pos 8 (g.Data1 % 2 ^ 32)
  omega

theorem generate_uuid_ne_empty (tm : TaskManager) (os : OsCalls) :
    tm.generate_uuid os ≠ "" := by
  unfold TaskManager.generate_uuid
  split
  · intro h
    have h1 := congrArg String.length h
    simp only [String.length_append] at h1
    have h2 : "fallback-uuid-".length = 14 := by decide
    have h3 : "".length = 0 := by decide
    omega
  · split
    · intro h
      have h1 := congrArg String.length h
      simp only [String.length_append] at h1
      have h2 : "error-uuid-".length = 11 := by decide
      have h3 : "".length = 0 := by decide
      omega
    · exact format_guid_ne_empty _

/-- C7: starting from a store without tasks, after `add_task(title)` the list
of uncompleted tasks holds exactly one task; it carries the given title, is not
done and has a non-empty id, whichever branch `generate_uuid` takes (fallback,
error, GUID); the list of completed tasks is empty. -/
theorem add_task_then_query (tm : TaskManager) (d : Disk) (title : String) (os : OsCalls)
    (hempty : tm.is_empty = true) :
    (∃ t, (tm.add_task d title os).1.get_uncompleted_tasks = [t] ∧
        t.title = title ∧ t.done = false ∧ t.id ≠ "" ∧ t.id = tm.generate_uuid os) ∧
    (tm.add_task d title os).1.get_completed_tasks = [] := by
  have h0 : tm.tasks = [] := by
    simpa [TaskManager.is_empty, List.isEmpty_iff] using hempty
  refine ⟨⟨Task.mk (tm.generate_uuid os) title false, ?_, rfl, rfl,
    generate_uuid_ne_empty tm os, rfl⟩, ?_⟩
  · simp [TaskManager.add_task, TaskManager.get_uncompleted_tasks, h0, umap_assign]
  · simp [TaskManager.add_task, TaskManager.get_completed_tasks, h0, umap_assign]

/-- Witness of C7: the store built on a missing data file when COM failed to
start, `rand()` returning 41. -/
theorem add_task_then_query_witness :
    (∃ t, ((TaskManager.mk [] [] false).add_task (Disk.mk none true true) "Buy milk"
          (OsCalls.mk 41 none)).1.get_uncompleted_tasks = [t] ∧
        t.title = "Buy milk" ∧ t.done = false ∧ t.id ≠ "" ∧
        t.id = (TaskManager.mk [] [] false).generate_uuid (OsCalls.mk 41 none)) ∧
    ((TaskManager.mk [] [] false).add_task (Disk.mk none true true) "Buy milk"
          (OsCalls.mk 41 none)).1.get_completed_tasks = [] :=
  add_task_then_query (TaskManager.mk [] [] false) (Disk.mk none true true) "Buy milk"
    (OsCalls.mk 41 none) rfl

/-! ## delete_task -/

/-- C8: for every store and every id, `delete_task(id)` returns (the function
is total: no error path), afterwards `contains_task(id)` is false and the
lookup of every other id gives the same task as before (same presence, id,
title and done flag); when `id` was not present, the task mapping and
`get_all_tasks()` are unchanged. -/
theorem delete_task_frame (tm : TaskManager) (d : Disk) (task_id : String) :
    (tm.delete_task d task_id).1.contains_task task_id = false ∧
    (∀ other, other ≠ task_id →
      umap_find (tm.delete_task d task_id).1.tasks other = umap_find tm.tasks other ∧
      (tm.delete_task d task_id).1.contains_task other = tm.contains_task other ∧
      (tm.delete_task d task_id).1.get_task_info other = tm.get_task_info other) ∧
    (tm.contains_task task_id = false →
      (tm.delete_task d task_id).1.tasks = tm.tasks ∧
      (tm.delete_task d task_id).1.get_all_tasks = tm.get_all_tasks) := by
  refine ⟨?_, ?_, ?_⟩
  · simp [TaskManager.delete_task, TaskManager.contains_task, umap_find_erase_self]
  · intro other hne
    have h := umap_find_erase_ne tm.tasks task_id other hne
    simp [TaskManager.delete_task, TaskManager.contains_task, TaskManager.get_task_info, h]
  · intro habs
    have h0 : umap_find tm.tasks task_id = none := by
      simpa [TaskManager.contains_task] using habs
    have h := umap_erase_absent tm.tasks task_id h0
    simp [TaskManager.delete_task, TaskManager.get_all_tasks, h]

/-- Witness of C8: deleting `does-not-exist` from a store with one task, and
the lookup of the other id `a`. -/
theorem delete_task_frame_witness :
    (umap_find ((TaskManager.mk [("a", Task.mk "a" "Buy milk" false)] [] true).delete_task
        (Disk.mk none true true) "does-not-exist").1.tasks "a"
      = umap_find (TaskManager.mk [("a", Task.mk "a" "Buy milk" false)] [] true).tasks "a") ∧
    ((TaskManager.mk [("a", Task.mk "a" "Buy milk" false)] [] true).delete_task
        (Disk.mk none true true) "does-not-exist").1.get_all_tasks
      = (TaskManager.mk [("a", Task.mk "a" "Buy milk" false)] [] true).get_all_tasks :=
  ⟨((delete_task_frame (TaskManager.mk [("a", Task.mk "a" "Buy milk" false)] [] true)
      (Disk.mk none true true) "does-not-exist").2.1 "a" (by decide)).1,
   ((delete_task_frame (TaskManager.mk [("a", Task.mk "a" "Buy milk" false)] [] true)
      (Disk.mk none true true) "does-not-exist").2.2 (by decide)).2⟩

/-! ## toggle_task_status -/

theorem toggle_task_status_present (tm : TaskManager) (d : Disk) (task_id : String) (t : Task)
    (h : umap_find tm.tasks task_id = some t) :
    tm.toggle_task_status d task_id =
      ({ tm with tasks := umap_modify tm.tasks task_id (fun t => { t with done := !t.done }) },
       TaskManager.save
         { tm with tasks := umap_modify tm.tasks task_id (fun t => { t with done := !t.done }) }
         d) := by
  simp [TaskManager.toggle_task_status, h]

theorem toggle_task_status_absent (tm : TaskManager) (d : Disk) (task_id : String)
    (h : umap_find tm.tasks task_id = none) :
    tm.toggle_task_status d task_id = (tm, d) := by
  simp [TaskManager.toggle_task_status, h]

/-- C9: for every store and every id, two successive calls of
`toggle_task_status(id)` leave the whole task mapping, hence the task stored
under `id` and its done flag, as they were before the two calls. -/
theorem toggle_task_status_twice (tm : TaskManager) (d : Disk) (task_id : String) :
    ((tm.toggle_task_status d task_id).1.toggle_task_status
        (tm.toggle_task_status d task_id).2 task_id).1.tasks = tm.tasks ∧
    ((tm.toggle_task_status d task_id).1.toggle_task_status
        (tm.toggle_task_status d task_id).2 task_id).1.get_task_info task_id
      = tm.get_task_info task_id := by
  have key : ((tm.toggle_task_status d task_id).1.toggle_task_status
        (tm.toggle_task_status d task_id).2 task_id).1.tasks = tm.tasks := by
    cases h : umap_find tm.tasks task_id with
    | none =>
        rw [toggle_task_status_absent tm d task_id h]
        simp only []
        rw [toggle_task_status_absent tm d task_id h]
    | some t =>
        rw [toggle_task_status_present tm d task_id t h]
        simp only []
        have h2 := umap_find_modify_self tm.tasks task_id (fun t => { t with done := !t.done })
        rw [h] at h2
        rw [toggle_task_status_present _ _ task_id _ h2]
        simp only []
        rw [umap_modify_modify]
        apply umap_modify_id
        intro v
        cases v
        simp
  refine ⟨key, ?_⟩
  simp only [TaskManager.get_task_info]
  rw [key]

/-- C10: for every store and every id: when `id` exists, after
`toggle_task_status(id)` the task under `id` is the former one with `done`
negated (same id, same title), the ids of the mapping are the same, the task
under every other id is the same and the selection mapping is unchanged; when
`id` does not exist the store (task mapping included) and the file are
unchanged. -/
theorem toggle_task_status_frame (tm : TaskManager) (d : Disk) (task_id : String) :
    (∀ t, umap_find tm.tasks task_id = some t →
      umap_find (tm.toggle_task_status d task_id).1.tasks task_id
        = some (Task.mk t.id t.title (!t.done)) ∧
      umap_keys (tm.toggle_task_status d task_id).1.tasks = umap_keys tm.tasks ∧
      (∀ other, other ≠ task_id →
        umap_find (tm.toggle_task_status d task_id).1.tasks other = umap_find tm.tasks other) ∧
      (tm.toggle_task_status d task_id).1.task_selection_states = tm.task_selection_states) ∧
    (tm.contains_task task_id = false → tm.toggle_task_status d task_id = (tm, d)) := by
  refine ⟨?_, ?_⟩
  · intro t h
    rw [toggle_task_status_present tm d task_id t h]
    refine ⟨?_, ?_, ?_, rfl⟩
    · simp only []
      rw [umap_find_modify_self, h]
      rfl
    · exact umap_keys_modify _ _ _
    · intro other hne
      exact umap_find_modify_ne _ _ _ _ hne
  · intro habs
    have h0 : umap_find tm.tasks task_id = none := by
      simpa [TaskManager.contains_task] using habs
    exact toggle_task_status_absent tm d task_id h0

/-- Witness of C10: toggling the task `a` of a two-task store, looking at the
other task `b`; and toggling the absent id `zzz`. -/
theorem toggle_task_status_frame_witness :
    (umap_find ((TaskManager.mk [("a", Task.mk "a" "Buy milk" false),
          ("b", Task.mk "b" "Write report" true)] [("a", true)] true).toggle_task_status
        (Disk.mk none true true) "a").1.tasks "b"
      = umap_find (TaskManager.mk [("a", Task.mk "a" "Buy milk" false),
          ("b", Task.mk "b" "Write report" true)] [("a", true)] true).tasks "b") ∧
    ((TaskManager.mk [("a", Task.mk "a" "Buy milk" false),
          ("b", Task.mk "b" "Write report" true)] [("a", true)] true).toggle_task_status
        (Disk.mk none true true) "zzz"
      = (TaskManager.mk [("a", Task.mk "a" "Buy milk" false),
          ("b", Task.mk "b" "Write report" true)] [("a", true)] true, Disk.mk none true true)) :=
  ⟨((toggle_task_status_frame (TaskManager.mk [("a", Task.mk "a" "Buy milk" false),
          ("b", Task.mk "b" "Write report" true)] [("a", true)] true)
        (Disk.mk none true true) "a").1 (Task.mk "a" "Buy milk" false) (by decide)).2.2.1
      "b" (by decide),
   (toggle_task_status_frame (TaskManager.mk [("a", Task.mk "a" "Buy milk" false),
          ("b", Task.mk "b" "Write report" true)] [("a", true)] true)
        (Disk.mk none true true) "zzz").2 (by decide)⟩

/-! ## Selection and existing tasks -/

theorem mem_selected_iff (tm : TaskManager) (task_id : String) :
    task_id ∈ tm.get_selected_task_ids ↔ (task_id, true) ∈ tm.task_selection_states := by
  simp only [TaskManager.get_selected_task_ids, List.mem_map, List.mem_filter]
  constructor
  · rintro ⟨⟨k, v⟩, ⟨hm, hv⟩, rfl⟩
    simp only at hv
    subst hv
    exact hm
  · intro h
    exact ⟨(task_id, true), ⟨h, rfl⟩, rfl⟩

theorem init_fold_all_false (l : List (String × Task)) (acc : List (String × Bool))
    (hacc : ∀ e, e ∈ acc → e.2 = false) :
    ∀ e, e ∈ l.foldl (fun sel x => umap_assign sel x.1 false) acc → e.2 = false := by
  induction l generalizing acc with
  | nil => simpa using hacc
  | cons x rest ih =>
      simp only [List.foldl_cons]
      apply ih
      intro e he
      rcases umap_mem_assign acc x.1 false e he with h | h
      · rw [h]
      · exact hacc e h

theorem init_selection_states_none_selected (tm : TaskManager) :
    tm.init_selection_states.get_selected_task_ids = [] := by
  rw [List.eq_nil_iff_forall_not_mem]
  intro a ha
  rw [mem_selected_iff] at ha
  have h := init_fold_all_false tm.tasks [] (by simp) (a, true) ha
  simp at h

theorem clear_selection_none_selected (tm : TaskManager) :
    tm.clear_selection.get_selected_task_ids = [] := by
  rw [List.eq_nil_iff_forall_not_mem]
  intro a ha
  rw [mem_selected_iff] at ha
  simp [TaskManager.clear_selection] at ha

theorem load_selection (tm : TaskManager) (d : Disk) :
    (tm.load d).1.task_selection_states = tm.task_selection_states := by
  unfold TaskManager.load
  cases d.content with
  | none => simp only []; split <;> rfl
  | some c =>
      simp only []
      split
      · split <;> rfl
      · rfl

theorem toggle_task_selection_find (tm : TaskManager) (task_id : String) :
    (tm.toggle_task_selection task_id).task_selection_states
      = umap_assign tm.task_selection_states task_id (!tm.is_task_selected task_id) := by
  simp only [TaskManager.toggle_task_selection, TaskManager.is_task_selected]
  cases h : umap_find tm.task_selection_states task_id <;> simp

theorem step_selection_within_tasks (s : TaskManager × Disk) (op : Op)
    (hinv : selection_within_tasks s.1) (hadm : op.admissible s.1 = true) :
    selection_within_tasks (step s op).1 := by
  obtain ⟨tm, d⟩ := s
  cases op with
  | add_task title os =>
      intro id hid
      have h1 := hinv id (by simpa [step, TaskManager.add_task, mem_selected_iff] using hid)
      simp only [step, TaskManager.add_task, TaskManager.contains_task] at h1 ⊢
      by_cases hk : id = tm.generate_uuid os
      · rw [hk, umap_find_assign_self]; rfl
      · rw [umap_find_assign_ne _ _ _ _ hk]; exact h1
  | delete_task task_id =>
      intro id hid
      have hsel : id ∈ tm.get_selected_task_ids := by
        simpa [step, TaskManager.delete_task, mem_selected_iff] using hid
      have h1 := hinv id hsel
      have hne : id ≠ task_id := by
        intro hc
        subst hc
        simp [Op.admissible] at hadm
        exact hadm hsel
      simp only [step, TaskManager.delete_task, TaskManager.contains_task] at h1 ⊢
      rw [umap_find_erase_ne _ _ _ hne]; exact h1
  | toggle_task_status task_id =>
      intro id hid
      cases h : umap_find tm.tasks task_id with
      | none =>
          simp only [step] at hid ⊢
          rw [toggle_task_status_absent tm d task_id h] at hid ⊢
          exact hinv id hid
      | some t =>
          simp only [step] at hid ⊢
          rw [toggle_task_status_present tm d task_id t h] at hid ⊢
          have h1 := hinv id (by simpa [mem_selected_iff] using hid)
          simp only [TaskManager.contains_task] at h1 ⊢
          by_cases hk : id = task_id
          · rw [hk, umap_find_modify_self, h]; rfl
          · rw [umap_find_modify_ne _ _ _ _ hk]; exact h1
  | init_selection_states =>
      intro id hid
      simp only [step] at hid
      rw [init_selection_states_none_selected] at hid
      simp at hid
  | toggle_task_selection task_id =>
      intro id hid
      have hsame : (step (tm, d) (Op.toggle_task_selection task_id)).1.contains_task id
          = tm.contains_task id := by
        simp only [step, TaskManager.toggle_task_selection, TaskManager.contains_task]
        split <;> rfl
      rw [hsame]
      rw [mem_selected_iff] at hid
      simp only [step] at hid
      rw [toggle_task_selection_find] at hid
      rcases umap_mem_assign _ _ _ _ hid with h2 | h2
      · have hk : id = task_id := (Prod.mk.inj h2).1
        have hv : true = !tm.is_task_selected task_id := (Prod.mk.inj h2).2
        have hns : tm.is_task_selected task_id = false := by
          cases hs : tm.is_task_selected task_id
          · rfl
          · rw [hs] at hv
            cases hv
        simp only [Op.admissible, hns, Bool.or_false] at hadm
        rw [hk]
        exact hadm
      · exact hinv id ((mem_selected_iff tm id).mpr h2)
  | clear_selection =>
      intro id hid
      simp only [step] at hid
      rw [clear_selection_none_selected] at hid
      simp at hid

theorem run_selection_within_tasks (ops : List Op) (s : TaskManager × Disk)
    (hinv : selection_within_tasks s.1) (hadm : all_admissible s ops = true) :
    selection_within_tasks (run s ops).1 := by
  induction ops generalizing s with
  | nil => simpa [run] using hinv
  | cons op rest ih =>
      simp only [all_admissible, Bool.and_eq_true] at hadm
      have h1 := step_selection_within_tasks s op hinv hadm.1
      have h2 := ih (step s op) h1 hadm.2
      simpa [run] using h2

/-- C3, counterexample: on a store freshly built over a missing file,
`toggle_task_selection("ghost")` selects an id that is not a task; and after
`add_task`, `init_selection_states`, `toggle_task_selection(id)` and
`delete_task(id)` the deleted id is still selected. -/
theorem selection_consistency_counterexample :
    ("ghost" ∈ (run (TaskManager.construct true (Disk.mk none true true))
        [Op.toggle_task_selection "ghost"]).1.get_selected_task_ids ∧
      (run (TaskManager.construct true (Disk.mk none true true))
        [Op.toggle_task_selection "ghost"]).1.contains_task "ghost" = false) ∧
    ("error-uuid-7" ∈ (run (TaskManager.construct true (Disk.mk none true true))
        [Op.add_task "Buy milk" (OsCalls.mk 7 none), Op.init_selection_states,
         Op.toggle_task_selection "error-uuid-7",
         Op.delete_task "error-uuid-7"]).1.get_selected_task_ids ∧
      (run (TaskManager.construct true (Disk.mk none true true))
        [Op.add_task "Buy milk" (OsCalls.mk 7 none), Op.init_selection_states,
         Op.toggle_task_selection "error-uuid-7",
         Op.delete_task "error-uuid-7"]).1.contains_task "error-uuid-7" = false) := by
  decide

theorem at_reset_selection_within_tasks (com_ok : Bool) (d0 : Disk) (pre : List Op)
    (hpre : at_reset pre = true) :
    selection_within_tasks (run (TaskManager.construct com_ok d0) pre).1 := by
  rcases List.eq_nil_or_concat pre with h | ⟨L, b, h⟩
  · subst h
    intro id hid
    rw [mem_selected_iff] at hid
    simp only [run, List.foldl_nil, TaskManager.construct] at hid
    rw [load_selection] at hid
    simp at hid
  · rw [List.concat_eq_append] at h
    subst h
    have hb : b.resets_selection = true := by
      simpa [at_reset, List.getLast?_concat] using hpre
    intro id hid
    simp only [run, List.foldl_append, List.foldl_cons, List.foldl_nil] at hid
    cases b with
    | init_selection_states =>
        simp only [step] at hid
        rw [init_selection_states_none_selected] at hid
        simp at hid
    | clear_selection =>
        simp only [step] at hid
        rw [clear_selection_none_selected] at hid
        simp at hid
    | add_task title os => simp [Op.resets_selection] at hb
    | delete_task task_id => simp [Op.resets_selection] at hb
    | toggle_task_status task_id => simp [Op.resets_selection] at hb
    | toggle_task_selection task_id => simp [Op.resets_selection] at hb

/-- C3, amended: take any sequence of public operations on a freshly built
(loaded) store, and cut it at its last `init_selection_states()` or
`clear_selection()` call (at the start if there is none, or at any earlier such
call).  If after the cut `toggle_task_selection(id)` is only called for an
existing task or a selected id, and `delete_task(id)` only for an id that is
not selected, then in the state reached every id of `get_selected_task_ids()`
is the id of an existing task.  What happens before the cut is free. -/
theorem selection_consistency_admissible (com_ok : Bool) (d0 : Disk) (pre post : List Op)
    (hpre : at_reset pre = true)
    (hadm : all_admissible (run (TaskManager.construct com_ok d0) pre) post = true) :
    ∀ task_id,
      task_id ∈ (run (TaskManager.construct com_ok d0) (pre ++ post)).1.get_selected_task_ids →
      (run (TaskManager.construct com_ok d0) (pre ++ post)).1.contains_task task_id = true := by
  have hrun : run (TaskManager.construct com_ok d0) (pre ++ post)
      = run (run (TaskManager.construct com_ok d0) pre) post := by
    simp [run, List.foldl_append]
  rw [hrun]
  exact run_selection_within_tasks post _
    (at_reset_selection_within_tasks com_ok d0 pre hpre) hadm

/-- Witness of C3 amended: the delete dialog of `main`: two tasks are added,
the first is selected, deleted while selected, the selection is cleared; then
the second task is selected. -/
theorem selection_consistency_admissible_witness :
    "error-uuid-9" ∈ (run (TaskManager.construct true (Disk.mk none true true))
        ([Op.add_task "Buy milk" (OsCalls.mk 7 none),
          Op.add_task "Write report" (OsCalls.mk 9 none),
          Op.toggle_task_selection "error-uuid-7", Op.delete_task "error-uuid-7",
          Op.clear_selection] ++
         [Op.toggle_task_selection "error-uuid-9"])).1.get_selected_task_ids ∧
    (run (TaskManager.construct true (Disk.mk none true true))
        ([Op.add_task "Buy milk" (OsCalls.mk 7 none),
          Op.add_task "Write report" (OsCalls.mk 9 none),
          Op.toggle_task_selection "error-uuid-7", Op.delete_task "error-uuid-7",
          Op.clear_selection] ++
         [Op.toggle_task_selection "error-uuid-9"])).1.contains_task "error-uuid-9" = true :=
  ⟨by decide,
   selection_consistency_admissible true (Disk.mk none true true)
     [Op.add_task "Buy milk" (OsCalls.mk 7 none),
      Op.add_task "Write report" (OsCalls.mk 9 none),
      Op.toggle_task_selection "error-uuid-7", Op.delete_task "error-uuid-7",
      Op.clear_selection]
     [Op.toggle_task_selection "error-uuid-9"]
     (by decide) (by decide) "error-uuid-9" (by decide)⟩

/-! ## load: fallback to the empty store -/

/-- C4, counterexample: the data file is missing and cannot be created; after
`load()` the store is empty but there is still no file, so its content is not
the empty object.  A file with rejected text that cannot be opened for reading
is left as it is.  A readable and writable file that holds a number too large
for a double (such as `1e999`: JSON by its grammar, top level not an object)
makes the parser raise `out_of_range`; `load()` only logs it and leaves the
file as it is. -/
theorem load_fallback_counterexample :
    (((TaskManager.mk [("a", Task.mk "a" "Buy milk" false)] [] true).load
        (Disk.mk none true false)).1.is_empty = true ∧
      ((TaskManager.mk [("a", Task.mk "a" "Buy milk" false)] [] true).load
        (Disk.mk none true false)).2.content = none ∧
      ¬ (((TaskManager.mk [("a", Task.mk "a" "Buy milk" false)] [] true).load
        (Disk.mk none true false)).2.content = some empty_object_text)) ∧
    ¬ (((TaskManager.mk [("a", Task.mk "a" "Buy milk" false)] [] true).load
        (Disk.mk (some (FileContent.malformed "not valid json")) false true)).2.content
      = some empty_object_text) ∧
    (Json.is_object (Json.num 0) = false ∧
      ((TaskManager.mk [("a", Task.mk "a" "Buy milk" false)] [] true).load
        (Disk.mk (some (FileContent.out_of_range (Json.num 0))) true true)).1.is_empty = true ∧
      ¬ (((TaskManager.mk [("a", Task.mk "a" "Buy milk" false)] [] true).load
        (Disk.mk (some (FileContent.out_of_range (Json.num 0))) true true)).2.content
      = some empty_object_text)) := by
  refine ⟨⟨rfl, rfl, ?_⟩, ?_, rfl, rfl, ?_⟩
  · intro h
    cases h
  · intro h
    have h1 : (some (FileContent.malformed "not valid json") : Option FileContent)
        = some (FileContent.json (Json.obj [])) := h
    cases h1
  · intro h
    have h1 : (some (FileContent.out_of_range (Json.num 0)) : Option FileContent)
        = some (FileContent.json (Json.obj [])) := h
    cases h1

/-- C4, amended: for every prior store, when the data file is missing, empty,
text on which the parser raises `parse_error`, text that parses to a value
that is not an object, or text on which the parser raises `out_of_range`, the
store holds no task after `load()`.  In the first four cases, when `load()` can
open the file (for writing, and for reading if the file exists), the file then
holds the empty object; in the last case the file is left as it is. -/
theorem load_fallback (tm : TaskManager) (d : Disk)
    (hfile : d.content = none ∨ d.content = some FileContent.empty ∨
      (∃ text, d.content = some (FileContent.malformed text)) ∨
      (∃ j, d.content = some (FileContent.json j) ∧ j.is_object = false) ∨
      (∃ shape, d.content = some (FileContent.out_of_range shape))) :
    (tm.load d).1.is_empty = true ∧ (tm.load d).1.tasks = [] ∧
    (d.can_write = true → (d.content ≠ none → d.can_read = true) →
      (∀ shape, d.content ≠ some (FileContent.out_of_range shape)) →
      (tm.load d).2.content = some empty_object_text) ∧
    ((∃ shape, d.content = some (FileContent.out_of_range shape)) → (tm.load d).2 = d) := by
  obtain ⟨tasks, sel, com⟩ := tm
  obtain ⟨content, cr, cw⟩ := d
  simp only at hfile
  rcases hfile with h | h | ⟨text, h⟩ | ⟨j, h, hj⟩ | ⟨shape, h⟩
  · subst h
    cases cw <;> simp [TaskManager.load, TaskManager.is_empty]
  · subst h
    cases cw <;> cases cr <;> simp [TaskManager.load, TaskManager.is_empty, Disk.write]
  · subst h
    cases cw <;> cases cr <;> simp [TaskManager.load, TaskManager.is_empty, Disk.write]
  · subst h
    cases j with
    | obj items => simp [Json.is_object] at hj
    | null => cases cw <;> cases cr <;> simp [TaskManager.load, TaskManager.is_empty, Disk.write]
    | bool b => cases cw <;> cases cr <;> simp [TaskManager.load, TaskManager.is_empty, Disk.write]
    | num n => cases cw <;> cases cr <;> simp [TaskManager.load, TaskManager.is_empty, Disk.write]
    | str x => cases cw <;> cases cr <;> simp [TaskManager.load, TaskManager.is_empty, Disk.write]
    | arr xs => cases cw <;> cases cr <;> simp [TaskManager.load, TaskManager.is_empty, Disk.write]
  · subst h
    cases cw <;> cases cr <;> simp [TaskManager.load, TaskManager.is_empty]

/-- Witness of C4 amended: a store with one task and a data file holding the
text `not valid json`. -/
theorem load_fallback_witness :
    ((TaskManager.mk [("a", Task.mk "a" "Buy milk" false)] [] true).load
        (Disk.mk (some (FileContent.malformed "not valid json")) true true)).1.is_empty = true ∧
    ((TaskManager.mk [("a", Task.mk "a" "Buy milk" false)] [] true).load
        (Disk.mk (some (FileContent.malformed "not valid json")) true true)).2.content
      = some empty_object_text :=
  ⟨(load_fallback (TaskManager.mk [("a", Task.mk "a" "Buy milk" false)] [] true)
      (Disk.mk (some (FileContent.malformed "not valid json")) true true)
      (Or.inr (Or.inr (Or.inl ⟨"not valid json", rfl⟩)))).1,
   (load_fallback (TaskManager.mk [("a", Task.mk "a" "Buy milk" false)] [] true)
      (Disk.mk (some (FileContent.malformed "not valid json")) true true)
      (Or.inr (Or.inr (Or.inl ⟨"not valid json", rfl⟩)))).2.2.1 rfl (fun _ => rfl)
      (fun shape h => by cases h)⟩

/-! ## load: entry by entry -/

theorem load_entry_eq (acc : List (String × Task)) (id : String) (data : Json) :
    TaskManager.load_entry acc (id, data) =
      match entry_task id data with
      | some t => umap_assign acc id t
      | none => acc := by
  cases data with
  | obj kvs =>
      cases h1 : umap_find kvs "title" with
      | none => simp [TaskManager.load_entry, entry_task, Json.contains, Json.at_key, h1]
      | some jt =>
          cases h2 : umap_find kvs "done" with
          | none => simp [TaskManager.load_entry, entry_task, Json.contains, Json.at_key, h1, h2]
          | some jd =>
              cases jt <;> cases jd <;>
                simp [TaskManager.load_entry, entry_task, Json.contains, Json.at_key, h1, h2,
                  Json.to_std_string, Json.to_bool]
  | null => simp [TaskManager.load_entry, entry_task, Json.contains, Json.at_key]
  | bool b => simp [TaskManager.load_entry, entry_task, Json.contains, Json.at_key]
  | num n => simp [TaskManager.load_entry, entry_task, Json.contains, Json.at_key]
  | str x => simp [TaskManager.load_entry, entry_task, Json.contains, Json.at_key]
  | arr xs => simp [TaskManager.load_entry, entry_task, Json.contains, Json.at_key]

theorem load_entry_find_ne (acc : List (String × Task)) (k id : String) (data : Json)
    (hne : id ≠ k) :
    umap_find (TaskManager.load_entry acc (k, data)) id = umap_find acc id := by
  rw [load_entry_eq]
  cases entry_task k data with
  | none => rfl
  | some t => exact umap_find_assign_ne _ _ _ _ hne

theorem load_entry_find_self (acc : List (String × Task)) (id : String) (data : Json) :
    umap_find (TaskManager.load_entry acc (id, data)) id =
      match entry_task id data with
      | some t => some t
      | none => umap_find acc id := by
  rw [load_entry_eq]
  cases entry_task id data with
  | none => rfl
  | some t => exact umap_find_assign_self _ _ _

theorem load_fold_find_absent (items : List (String × Json)) (acc : List (String × Task))
    (id : String) (h : id ∉ umap_keys items) :
    umap_find (items.foldl TaskManager.load_entry acc) id = umap_find acc id := by
  induction items generalizing acc with
  | nil => rfl
  | cons x rest ih =>
      obtain ⟨k, data⟩ := x
      simp only [umap_keys, List.map_cons, List.mem_cons, not_or] at h
      simp only [List.foldl_cons]
      rw [ih _ (by simpa [umap_keys] using h.2)]
      exact load_entry_find_ne acc k id data h.1

theorem load_fold_find_entry (items : List (String × Json)) (acc : List (String × Task))
    (id : String) (data : Json) (hkeys : (umap_keys items).Nodup) (hmem : (id, data) ∈ items) :
    umap_find (items.foldl TaskManager.load_entry acc) id =
      match entry_task id data with
      | some t => some t
      | none => umap_find acc id := by
  induction items generalizing acc with
  | nil => simp at hmem
  | cons x rest ih =>
      obtain ⟨k, dat⟩ := x
      simp only [umap_keys, List.map_cons, List.nodup_cons] at hkeys
      simp only [List.foldl_cons]
      rcases List.mem_cons.mp hmem with h | h
      · have hk : k = id := (Prod.mk.inj h).1.symm
        have hd : dat = data := (Prod.mk.inj h).2.symm
        subst hk; subst hd
        rw [load_fold_find_absent rest _ k hkeys.1]
        exact load_entry_find_self acc k dat
      · have hin : id ∈ rest.map Prod.fst := List.mem_map.mpr ⟨(id, data), h, rfl⟩
        have hne : id ≠ k := by
          intro hc
          rw [hc] at hin
          exact hkeys.1 hin
        rw [ih _ hkeys.2 h, load_entry_find_ne acc k id dat hne]

theorem load_object (tm : TaskManager) (d : Disk) (items : List (String × Json))
    (hread : d.can_read = true) (hfile : d.content = some (FileContent.json (Json.obj items))) :
    tm.load d = ({ tm with tasks := items.foldl TaskManager.load_entry [] }, d) := by
  simp [TaskManager.load, hfile, hread]

/-- C5, counterexample: a data file whose top level is a JSON object with an
entry `a` that has no `done` and a well-formed entry `b`.  When the file cannot
be opened for reading, `load()` returns with nothing loaded; when the entry
`a` also holds a number too large for a double, the parser raises
`out_of_range` and `load()` loads nothing: in both cases `b` is not loaded. -/
theorem load_per_entry_counterexample :
    ((TaskManager.mk [] [] true).load (Disk.mk (some (FileContent.json (Json.obj
        [("a", Json.obj [("title", Json.str "Buy milk")]),
         ("b", Json.obj [("title", Json.str "Write report"), ("done", Json.bool true)])])))
        false true)).1.contains_task "b" = false ∧
    ((TaskManager.mk [] [] true).load (Disk.mk (some (FileContent.out_of_range (Json.obj
        [("a", Json.obj [("title", Json.str "Buy milk"), ("weight", Json.num 0)]),
         ("b", Json.obj [("title", Json.str "Write report"), ("done", Json.bool true)])])))
        true true)).1.contains_task "b" = false := by
  decide

/-- C5, amended: for every data file that `load()` can open for reading and
that the parser turns into a JSON object (one entry per key; no parse error,
no number too large), every entry without `title` or without `done` is skipped
(no task under its id), every entry whose `title` is a string and whose `done`
is a boolean is loaded as the task with the persisted id, title and done flag,
whatever the other entries are; the file is left as it is. -/
theorem load_per_entry (tm : TaskManager) (d : Disk) (items : List (String × Json))
    (hread : d.can_read = true)
    (hfile : d.content = some (FileContent.json (Json.obj items)))
    (hkeys : (umap_keys items).Nodup) :
    (∀ id data, (id, data) ∈ items →
      (data.contains "title" = false ∨ data.contains "done" = false) →
      (tm.load d).1.contains_task id = false) ∧
    (∀ id data title done, (id, data) ∈ items →
      data.at_key "title" = some (Json.str title) →
      data.at_key "done" = some (Json.bool done) →
      umap_find (tm.load d).1.tasks id = some (Task.mk id title done) ∧
      (tm.load d).1.contains_task id = true ∧
      (tm.load d).1.get_task_info id = Task.mk id title done) ∧
    (tm.load d).2 = d := by
  rw [load_object tm d items hread hfile]
  refine ⟨?_, ?_, rfl⟩
  · intro id data hmem hlack
    have h := load_fold_find_entry items [] id data hkeys hmem
    have hnone : entry_task id data = none := by
      cases data with
      | obj kvs =>
          simp only [Json.contains] at hlack
          rcases hlack with h1 | h1
          · have h2 : umap_find kvs "title" = none := by simpa using h1
            simp [entry_task, Json.at_key, h2]
          · have h2 : umap_find kvs "done" = none := by simpa using h1
            cases h3 : umap_find kvs "title" <;> simp [entry_task, Json.at_key, h2, h3]
      | null => rfl
      | bool b => rfl
      | num n => rfl
      | str x => rfl
      | arr xs => rfl
    rw [hnone] at h
    simp only [TaskManager.contains_task, h]
    rfl
  · intro id data title done hmem ht hd
    have h := load_fold_find_entry items [] id data hkeys hmem
    have hsome : entry_task id data = some (Task.mk id title done) := by
      simp [entry_task, ht, hd]
    rw [hsome] at h
    simp only [TaskManager.contains_task, TaskManager.get_task_info, h]
    exact ⟨trivial, rfl, trivial⟩

/-- Witness of C5 amended: a file with an entry `a` that has only `title` and a
well-formed entry `b`. -/
theorem load_per_entry_witness :
    ((TaskManager.mk [] [] true).load (Disk.mk (some (FileContent.json (Json.obj
        [("a", Json.obj [("title", Json.str "Buy milk")]),
         ("b", Json.obj [("title", Json.str "Write report"), ("done", Json.bool true)])])))
        true true)).1.contains_task "a" = false ∧
    umap_find ((TaskManager.mk [] [] true).load (Disk.mk (some (FileContent.json (Json.obj
        [("a", Json.obj [("title", Json.str "Buy milk")]),
         ("b", Json.obj [("title", Json.str "Write report"), ("done", Json.bool true)])])))
        true true)).1.tasks "b" = some (Task.mk "b" "Write report" true) :=
  ⟨(load_per_entry (TaskManager.mk [] [] true) (Disk.mk (some (FileContent.json (Json.obj
        [("a", Json.obj [("title", Json.str "Buy milk")]),
         ("b", Json.obj [("title", Json.str "Write report"), ("done", Json.bool true)])])))
        true true) _ rfl rfl (by decide)).1 "a" _ (List.Mem.head _) (Or.inr rfl),
   ((load_per_entry (TaskManager.mk [] [] true) (Disk.mk (some (FileContent.json (Json.obj
        [("a", Json.obj [("title", Json.str "Buy milk")]),
         ("b", Json.obj [("title", Json.str "Write report"), ("done", Json.bool true)])])))
        true true) _ rfl rfl (by decide)).2.1 "b" _ "Write report" true
        (List.Mem.tail _ (List.Mem.head _)) rfl rfl).1⟩

/-! ## Saving after a mutation -/

/-- C6, counterexample: the file holds an entry without `done`, which the
constructor skips, so memory is empty and the file is not; the file can be
written; `toggle_task_status("zzz")` on an id that does not exist returns
without saving and the file is not the serialization of the (empty) mapping. -/
theorem mutation_persists_counterexample :
    (TaskManager.construct true (Disk.mk (some (FileContent.json (Json.obj
        [("a", Json.obj [("title", Json.str "Buy milk")])]))) true true)).2.can_write = true ∧
    (((TaskManager.construct true (Disk.mk (some (FileContent.json (Json.obj
        [("a", Json.obj [("title", Json.str "Buy milk")])]))) true true)).1.toggle_task_status
      (TaskManager.construct true (Disk.mk (some (FileContent.json (Json.obj
        [("a", Json.obj [("title", Json.str "Buy milk")])]))) true true)).2 "zzz").1.tasks = []) ∧
    ¬ (((TaskManager.construct true (Disk.mk (some (FileContent.json (Json.obj
        [("a", Json.obj [("title", Json.str "Buy milk")])]))) true true)).1.toggle_task_status
      (TaskManager.construct true (Disk.mk (some (FileContent.json (Json.obj
        [("a", Json.obj [("title", Json.str "Buy milk")])]))) true true)).2 "zzz").2.content
      = some (FileContent.json (TaskManager.to_json
          ((TaskManager.construct true (Disk.mk (some (FileContent.json (Json.obj
            [("a", Json.obj [("title", Json.str "Buy milk")])]))) true true)).1.toggle_task_status
          (TaskManager.construct true (Disk.mk (some (FileContent.json (Json.obj
            [("a", Json.obj [("title", Json.str "Buy milk")])]))) true true)).2 "zzz").1.tasks))) := by
  refine ⟨rfl, rfl, ?_⟩
  intro h
  have h1 : (some (FileContent.json (Json.obj
      [("a", Json.obj [("title", Json.str "Buy milk")])])) : Option FileContent)
      = some (FileContent.json (Json.obj [])) := h
  simp at h1

/-- C6, amended: when the data file can be written, every call of `add_task`,
of `delete_task`, and of `toggle_task_status` with the id of an existing task
returns with the file holding the serialization of the task mapping as it is
at return; `toggle_task_status` with an id that does not exist does not save
and leaves store and file as they were. -/
theorem mutation_persists (tm : TaskManager) (d : Disk) (hw : d.can_write = true) :
    (∀ title os, (tm.add_task d title os).2.content
      = some (FileContent.json (TaskManager.to_json (tm.add_task d title os).1.tasks))) ∧
    (∀ task_id, (tm.delete_task d task_id).2.content
      = some (FileContent.json (TaskManager.to_json (tm.delete_task d task_id).1.tasks))) ∧
    (∀ task_id, tm.contains_task task_id = true →
      (tm.toggle_task_status d task_id).2.content
        = some (FileContent.json (TaskManager.to_json (tm.toggle_task_status d task_id).1.tasks))) ∧
    (∀ task_id, tm.contains_task task_id = false →
      tm.toggle_task_status d task_id = (tm, d)) := by
  refine ⟨?_, ?_, ?_, ?_⟩
  · intro title os
    simp [TaskManager.add_task, TaskManager.save, hw]
  · intro task_id
    simp [TaskManager.delete_task, TaskManager.save, hw]
  · intro task_id hex
    cases h : umap_find tm.tasks task_id with
    | none => simp [TaskManager.contains_task, h] at hex
    | some t =>
        rw [toggle_task_status_present tm d task_id t h]
        simp [TaskManager.save, hw]
  · intro task_id habs
    have h0 : umap_find tm.tasks task_id = none := by
      simpa [TaskManager.contains_task] using habs
    exact toggle_task_status_absent tm d task_id h0

/-- Witness of C6 amended: a store with the task `a` over a writable file that
is out of date; toggling `a` brings the file up to date. -/
theorem mutation_persists_witness :
    ((TaskManager.mk [("a", Task.mk "a" "Buy milk" false)] [] true).toggle_task_status
        (Disk.mk (some empty_object_text) true true) "a").2.content
      = some (FileContent.json (TaskManager.to_json
          ((TaskManager.mk [("a", Task.mk "a" "Buy milk" false)] [] true).toggle_task_status
            (Disk.mk (some empty_object_text) true true) "a").1.tasks)) :=
  (mutation_persists (TaskManager.mk [("a", Task.mk "a" "Buy milk" false)] [] true)
    (Disk.mk (some empty_object_text) true true) rfl).2.2.1 "a" (by decide)

/-! ## Keys and ids of the task mapping -/

theorem entry_task_id (id : String) (data : Json) (t : Task)
    (h : entry_task id data = some t) : t.id = id := by
  unfold entry_task at h
  split at h
  · cases h; rfl
  · cases h

theorem well_keyed_assign (m : List (String × Task)) (k : String) (t : Task)
    (h : well_keyed m) (ht : t.id = k) : well_keyed (umap_assign m k t) := by
  refine ⟨umap_keys_assign_nodup m k t h.1, ?_⟩
  intro e he
  rcases umap_mem_assign m k t e he with h1 | h1
  · rw [h1]; exact ht
  · exact h.2 e h1

theorem well_keyed_erase (m : List (String × Task)) (k : String)
    (h : well_keyed m) : well_keyed (umap_erase m k) := by
  refine ⟨umap_keys_erase_nodup m k h.1, ?_⟩
  intro e he
  exact h.2 e (List.mem_of_mem_filter he)

theorem well_keyed_modify (m : List (String × Task)) (k : String) (f : Task → Task)
    (hf : ∀ t, (f t).id = t.id) (h : well_keyed m) : well_keyed (umap_modify m k f) := by
  refine ⟨by rw [umap_keys_modify]; exact h.1, ?_⟩
  intro e he
  rcases umap_mem_modify m k f e he with h1 | ⟨v, hv, hfv⟩
  · exact h.2 e h1
  · rw [hfv, hf]; exact h.2 (e.1, v) hv

theorem well_keyed_load_fold (items : List (String × Json)) (acc : List (String × Task))
    (h : well_keyed acc) : well_keyed (items.foldl TaskManager.load_entry acc) := by
  induction items generalizing acc with
  | nil => exact h
  | cons x rest ih =>
      obtain ⟨k, data⟩ := x
      simp only [List.foldl_cons]
      apply ih
      rw [load_entry_eq]
      cases ht : entry_task k data with
      | none => exact h
      | some t => exact well_keyed_assign acc k t h (entry_task_id k data t ht)

theorem well_keyed_nil : well_keyed [] := by
  refine ⟨by simp [umap_keys], ?_⟩
  intro e he
  cases he

theorem well_keyed_load (tm : TaskManager) (d : Disk) : well_keyed (tm.load d).1.tasks := by
  unfold TaskManager.load
  cases d.content with
  | none => simp only []; split <;> exact well_keyed_nil
  | some c =>
      simp only []
      split
      · split
        · exact well_keyed_nil
        · exact well_keyed_nil
        · exact well_keyed_load_fold _ [] well_keyed_nil
        · exact well_keyed_nil
        · exact well_keyed_nil
      · exact well_keyed_nil

theorem well_keyed_step (s : TaskManager × Disk) (op : Op) (h : well_keyed s.1.tasks) :
    well_keyed (step s op).1.tasks := by
  obtain ⟨tm, d⟩ := s
  cases op with
  | add_task title os => exact well_keyed_assign _ _ _ h rfl
  | delete_task task_id => exact well_keyed_erase _ _ h
  | toggle_task_status task_id =>
      simp only [step]
      cases hf : umap_find tm.tasks task_id with
      | none => rw [toggle_task_status_absent tm d task_id hf]; exact h
      | some t =>
          rw [toggle_task_status_present tm d task_id t hf]
          exact well_keyed_modify _ _ _ (fun _ => rfl) h
  | init_selection_states => exact h
  | toggle_task_selection task_id =>
      simp only [step, TaskManager.toggle_task_selection]
      split <;> exact h
  | clear_selection => exact h

theorem well_keyed_run (ops : List Op) (s : TaskManager × Disk) (h : well_keyed s.1.tasks) :
    well_keyed (run s ops).1.tasks := by
  induction ops generalizing s with
  | nil => exact h
  | cons op rest ih =>
      simp only [run, List.foldl_cons]
      exact ih (step s op) (well_keyed_step s op h)

/-! ## save followed by load -/

theorem assign_fold_eq {W : Type} (g : String × Task → W) (m : List (String × Task))
    (acc : List (String × W)) (hnd : (umap_keys m).Nodup)
    (hdisj : ∀ k, k ∈ umap_keys m → k ∉ umap_keys acc) :
    m.foldl (fun j e => umap_assign j e.1 (g e)) acc = acc ++ m.map (fun e => (e.1, g e)) := by
  induction m generalizing acc with
  | nil => simp
  | cons x rest ih =>
      simp only [umap_keys, List.map_cons, List.nodup_cons] at hnd
      have hx : x.1 ∉ umap_keys acc := hdisj x.1 (by simp [umap_keys])
      simp only [List.foldl_cons, List.map_cons]
      rw [umap_assign_absent acc x.1 (g x) hx, ih _ hnd.2]
      · simp
      · intro k hk
        have h1 : k ∉ umap_keys acc := hdisj k (by
          simp only [umap_keys, List.map_cons, List.mem_cons]
          exact Or.inr hk)
        have h2 : k ≠ x.1 := by
          intro hc
          rw [hc] at hk
          exact hnd.1 hk
        simp only [umap_keys, List.map_append, List.map_cons, List.map_nil, List.mem_append,
          List.mem_singleton, not_or]
        exact ⟨h1, h2⟩

theorem to_json_eq (tasks : List (String × Task)) (hnd : (umap_keys tasks).Nodup) :
    TaskManager.to_json tasks = Json.obj (tasks.map (fun e =>
      (e.1, Json.obj [("title", Json.str e.2.title), ("done", Json.bool e.2.done)]))) := by
  unfold TaskManager.to_json
  rw [assign_fold_eq _ tasks [] hnd (by simp [umap_keys])]
  simp

theorem load_entry_saved (acc : List (String × Task)) (k title : String) (done : Bool) :
    TaskManager.load_entry acc
        (k, Json.obj [("title", Json.str title), ("done", Json.bool done)])
      = umap_assign acc k (Task.mk k title done) := by
  rw [load_entry_eq]
  have h : entry_task k (Json.obj [("title", Json.str title), ("done", Json.bool done)])
      = some (Task.mk k title done) := by
    simp [entry_task, Json.at_key, umap_find]
  rw [h]

theorem load_fold_saved (m : List (String × Task)) (hk : well_keyed m) :
    (m.map (fun e =>
        (e.1, Json.obj [("title", Json.str e.2.title), ("done", Json.bool e.2.done)]))).foldl
      TaskManager.load_entry [] = m := by
  rw [List.foldl_map]
  simp only [load_entry_saved]
  rw [assign_fold_eq (fun e => Task.mk e.1 e.2.title e.2.done) m [] hk.1 (by simp [umap_keys])]
  simp only [List.nil_append]
  conv_rhs => rw [← List.map_id m]
  apply List.map_congr_left
  intro e he
  obtain ⟨k, t⟩ := e
  have h := hk.2 (k, t) he
  simp only at h
  cases t
  simp only [id] at h ⊢
  simp_all

theorem save_then_load (tm fresh : TaskManager) (d : Disk) (hk : well_keyed tm.tasks)
    (hw : d.can_write = true) (hr : d.can_read = true) :
    fresh.load (tm.save d) = ({ fresh with tasks := tm.tasks }, tm.save d) := by
  have h1 : tm.save d
      = { d with content := some (FileContent.json (TaskManager.to_json tm.tasks)) } := by
    simp [TaskManager.save, hw]
  rw [h1, to_json_eq tm.tasks hk.1]
  rw [load_object fresh
    { d with content := some (FileContent.json (Json.obj (tm.tasks.map (fun e =>
      (e.1, Json.obj [("title", Json.str e.2.title), ("done", Json.bool e.2.done)]))))) }
    _ hr rfl, load_fold_saved tm.tasks hk]

/-- C1, counterexample: the data file cannot be opened for writing. After
`add_task` the store holds a task; `save()` writes nothing, and a fresh store
built from the file and loaded again does not hold the task.  The same happens
when the file is written but cannot be opened for reading. -/
theorem save_load_round_trip_counterexample :
    ((run (TaskManager.construct true (Disk.mk (some empty_object_text) true false))
        [Op.add_task "Buy milk" (OsCalls.mk 7 none)]).1.contains_task "error-uuid-7" = true ∧
      ((TaskManager.construct true
        ((run (TaskManager.construct true (Disk.mk (some empty_object_text) true false))
            [Op.add_task "Buy milk" (OsCalls.mk 7 none)]).1.save
          (run (TaskManager.construct true (Disk.mk (some empty_object_text) true false))
            [Op.add_task "Buy milk" (OsCalls.mk 7 none)]).2)).1.load
      (TaskManager.construct true
        ((run (TaskManager.construct true (Disk.mk (some empty_object_text) true false))
            [Op.add_task "Buy milk" (OsCalls.mk 7 none)]).1.save
          (run (TaskManager.construct true (Disk.mk (some empty_object_text) true false))
            [Op.add_task "Buy milk" (OsCalls.mk 7 none)]).2)).2).1.contains_task
        "error-uuid-7" = false) ∧
    ((run (TaskManager.construct true (Disk.mk none false true))
        [Op.add_task "Buy milk" (OsCalls.mk 7 none)]).1.contains_task "error-uuid-7" = true ∧
      ((TaskManager.construct true
        ((run (TaskManager.construct true (Disk.mk none false true))
            [Op.add_task "Buy milk" (OsCalls.mk 7 none)]).1.save
          (run (TaskManager.construct true (Disk.mk none false true))
            [Op.add_task "Buy milk" (OsCalls.mk 7 none)]).2)).1.load
      (TaskManager.construct true
        ((run (TaskManager.construct true (Disk.mk none false true))
            [Op.add_task "Buy milk" (OsCalls.mk 7 none)]).1.save
          (run (TaskManager.construct true (Disk.mk none false true))
            [Op.add_task "Buy milk" (OsCalls.mk 7 none)]).2)).2).1.contains_task
        "error-uuid-7" = false) := by
  decide

/-- C1, amended: for every state reached from a freshly built store by a
sequence of `add_task` / `delete_task` / `toggle_task_status` calls (selection
calls may be interleaved), when the data file can be opened for writing by
`save()` and for reading by `load()`, `save()` followed by building a fresh
store from the file and calling `load()` gives the task mapping of save time:
the lookup of every id gives the same task (same ids, titles, done flags), and
`get_all_tasks()` is the same up to order. -/
theorem save_load_round_trip (com_ok fresh_com : Bool) (d0 : Disk) (ops : List Op)
    (hw : (run (TaskManager.construct com_ok d0) ops).2.can_write = true)
    (hr : (run (TaskManager.construct com_ok d0) ops).2.can_read = true) :
    (∀ task_id,
      umap_find ((TaskManager.construct fresh_com
          ((run (TaskManager.construct com_ok d0) ops).1.save
            (run (TaskManager.construct com_ok d0) ops).2)).1.load
        (TaskManager.construct fresh_com
          ((run (TaskManager.construct com_ok d0) ops).1.save
            (run (TaskManager.construct com_ok d0) ops).2)).2).1.tasks task_id
      = umap_find (run (TaskManager.construct com_ok d0) ops).1.tasks task_id) ∧
    (((TaskManager.construct fresh_com
          ((run (TaskManager.construct com_ok d0) ops).1.save
            (run (TaskManager.construct com_ok d0) ops).2)).1.load
        (TaskManager.construct fresh_com
          ((run (TaskManager.construct com_ok d0) ops).1.save
            (run (TaskManager.construct com_ok d0) ops).2)).2).1.get_all_tasks).Perm
      (run (TaskManager.construct com_ok d0) ops).1.get_all_tasks := by
  have hk : well_keyed (run (TaskManager.construct com_ok d0) ops).1.tasks :=
    well_keyed_run ops _ (well_keyed_load _ d0)
  generalize run (TaskManager.construct com_ok d0) ops = s at hw hr hk
  have h1 : TaskManager.construct fresh_com (s.1.save s.2)
      = ({ tasks := s.1.tasks, task_selection_states := [], com_initialized := fresh_com },
         s.1.save s.2) := by
    unfold TaskManager.construct
    rw [save_then_load s.1 _ s.2 hk hw hr]
  rw [h1]
  simp only []
  rw [save_then_load s.1 _ s.2 hk hw hr]
  exact ⟨fun _ => rfl, List.Perm.refl _⟩

/-- Witness of C1 amended: a writable and readable file, a task added, a
second one added and marked; the first is found again after save and load. -/
theorem save_load_round_trip_witness :
    umap_find ((TaskManager.construct true
          ((run (TaskManager.construct true (Disk.mk none true true))
              [Op.add_task "Buy milk" (OsCalls.mk 7 none),
               Op.add_task "Write report" (OsCalls.mk 9 none),
               Op.toggle_task_status "error-uuid-9"]).1.save
            (run (TaskManager.construct true (Disk.mk none true true))
              [Op.add_task "Buy milk" (OsCalls.mk 7 none),
               Op.add_task "Write report" (OsCalls.mk 9 none),
               Op.toggle_task_status "error-uuid-9"]).2)).1.load
        (TaskManager.construct true
          ((run (TaskManager.construct true (Disk.mk none true true))
              [Op.add_task "Buy milk" (OsCalls.mk 7 none),
               Op.add_task "Write report" (OsCalls.mk 9 none),
               Op.toggle_task_status "error-uuid-9"]).1.save
            (run (TaskManager.construct true (Disk.mk none true true))
              [Op.add_task "Buy milk" (OsCalls.mk 7 none),
               Op.add_task "Write report" (OsCalls.mk 9 none),
               Op.toggle_task_status "error-uuid-9"]).2)).2).1.tasks "error-uuid-9"
      = umap_find (run (TaskManager.construct true (Disk.mk none true true))
              [Op.add_task "Buy milk" (OsCalls.mk 7 none),
               Op.add_task "Write report" (OsCalls.mk 9 none),
               Op.toggle_task_status "error-uuid-9"]).1.tasks "error-uuid-9" :=
  (save_load_round_trip true true (Disk.mk none true true)
    [Op.add_task "Buy milk" (OsCalls.mk 7 none),
     Op.add_task "Write report" (OsCalls.mk 9 none),
     Op.toggle_task_status "error-uuid-9"] (by decide) (by decide)).1 "error-uuid-9"

/-! ## The selection mapping -/

theorem umap_keys_assign_mem {V : Type} (m : List (String × V)) (k k2 : String) (v : V) :
    k2 ∈ umap_keys (umap_assign m k v) ↔ k2 = k ∨ k2 ∈ umap_keys m := by
  rw [← umap_find_isSome_iff, ← umap_find_isSome_iff]
  by_cases h : k2 = k
  · subst h
    simp [umap_find_assign_self]
  · rw [umap_find_assign_ne m k k2 v h]
    simp [h]

theorem init_fold_keys (l : List (String × Task)) (acc : List (String × Bool)) :
    ((umap_keys acc).Nodup →
      (umap_keys (l.foldl (fun sel x => umap_assign sel x.1 false) acc)).Nodup) ∧
    ∀ k, k ∈ umap_keys (l.foldl (fun sel x => umap_assign sel x.1 false) acc) ↔
      (k ∈ umap_keys acc ∨ k ∈ umap_keys l) := by
  induction l generalizing acc with
  | nil => simp [umap_keys]
  | cons x rest ih =>
      simp only [List.foldl_cons]
      refine ⟨fun h => (ih _).1 (umap_keys_assign_nodup acc x.1 false h), ?_⟩
      intro k
      rw [(ih _).2 k, umap_keys_assign_mem]
      simp only [umap_keys, List.map_cons, List.mem_cons]
      constructor
      · rintro ((h | h) | h)
        · exact Or.inr (Or.inl h)
        · exact Or.inl h
        · exact Or.inr (Or.inr h)
      · rintro (h | h | h)
        · exact Or.inl (Or.inr h)
        · exact Or.inl (Or.inl h)
        · exact Or.inr h

theorem has_selection_eq_false (tm : TaskManager)
    (h : ∀ e, e ∈ tm.task_selection_states → e.2 = false) : tm.has_selection = false := by
  simp only [TaskManager.has_selection, List.any_eq_false]
  intro e he
  simp [h e he]

/-- C11: for every store state, after `init_selection_states()` the selection
mapping has one entry per existing task id (no key twice, and a key is present
exactly when `contains_task` holds for it), every flag is false,
`has_selection()` is false, `get_selected_task_ids()` is empty, and the task
mapping is unchanged. -/
theorem init_selection_states_spec (tm : TaskManager) :
    (umap_keys tm.init_selection_states.task_selection_states).Nodup ∧
    (∀ task_id, task_id ∈ umap_keys tm.init_selection_states.task_selection_states ↔
      tm.contains_task task_id = true) ∧
    (∀ e, e ∈ tm.init_selection_states.task_selection_states → e.2 = false) ∧
    tm.init_selection_states.has_selection = false ∧
    tm.init_selection_states.get_selected_task_ids = [] ∧
    tm.init_selection_states.tasks = tm.tasks := by
  have hfalse : ∀ e, e ∈ tm.init_selection_states.task_selection_states → e.2 = false :=
    init_fold_all_false tm.tasks [] (by simp)
  refine ⟨?_, ?_, hfalse, has_selection_eq_false _ hfalse,
    init_selection_states_none_selected tm, rfl⟩
  · exact (init_fold_keys tm.tasks []).1 (by simp [umap_keys])
  · intro task_id
    have h := (init_fold_keys tm.tasks []).2 task_id
    simp only [TaskManager.init_selection_states, TaskManager.contains_task]
    rw [h, umap_find_isSome_iff]
    simp [umap_keys]

/-- C12: for every store and every id, after `toggle_task_selection(id)` the
value of `is_task_selected(id)` is the negation of its former value (an id
without entry counts as false: it becomes selected and `has_selection()`
becomes true), `is_task_selected(other)` is unchanged for every other id, and
the task mapping is unchanged. -/
theorem toggle_task_selection_spec (tm : TaskManager) (task_id : String) :
    (tm.toggle_task_selection task_id).is_task_selected task_id
      = !tm.is_task_selected task_id ∧
    (∀ other, other ≠ task_id →
      (tm.toggle_task_selection task_id).is_task_selected other = tm.is_task_selected other) ∧
    (tm.is_task_selected task_id = false →
      (tm.toggle_task_selection task_id).is_task_selected task_id = true ∧
      (tm.toggle_task_selection task_id).has_selection = true) ∧
    (umap_find tm.task_selection_states task_id = none →
      (tm.toggle_task_selection task_id).is_task_selected task_id = true ∧
      (tm.toggle_task_selection task_id).has_selection = true) ∧
    (tm.toggle_task_selection task_id).tasks = tm.tasks := by
  have hself : (tm.toggle_task_selection task_id).is_task_selected task_id
      = !tm.is_task_selected task_id := by
    simp only [TaskManager.is_task_selected]
    rw [toggle_task_selection_find, umap_find_assign_self]
    rfl
  have hsel : tm.is_task_selected task_id = false →
      (tm.toggle_task_selection task_id).is_task_selected task_id = true ∧
      (tm.toggle_task_selection task_id).has_selection = true := by
    intro h
    have h1 : umap_find (tm.toggle_task_selection task_id).task_selection_states task_id
        = some true := by
      rw [toggle_task_selection_find, umap_find_assign_self, h]
      rfl
    refine ⟨by rw [hself, h]; rfl, ?_⟩
    simp only [TaskManager.has_selection, List.any_eq_true]
    exact ⟨(task_id, true), umap_find_mem _ _ _ h1, rfl⟩
  refine ⟨hself, ?_, hsel, ?_, ?_⟩
  · intro other hne
    simp only [TaskManager.is_task_selected]
    rw [toggle_task_selection_find, umap_find_assign_ne _ _ _ _ hne]
  · intro h
    apply hsel
    simp [TaskManager.is_task_selected, h]
  · simp only [TaskManager.toggle_task_selection]
    split <;> rfl

/-- Witness of C12: an id without entry in a store whose selection mapping has
an unselected entry for another task. -/
theorem toggle_task_selection_spec_witness :
    ((TaskManager.mk [("a", Task.mk "a" "Buy milk" false)] [("a", false)]
        true).toggle_task_selection "b").is_task_selected "b" = true ∧
    ((TaskManager.mk [("a", Task.mk "a" "Buy milk" false)] [("a", false)]
        true).toggle_task_selection "b").has_selection = true ∧
    ((TaskManager.mk [("a", Task.mk "a" "Buy milk" false)] [("a", false)]
        true).toggle_task_selection "b").is_task_selected "a"
      = (TaskManager.mk [("a", Task.mk "a" "Buy milk" false)] [("a", false)]
        true).is_task_selected "a" :=
  ⟨((toggle_task_selection_spec (TaskManager.mk [("a", Task.mk "a" "Buy milk" false)]
      [("a", false)] true) "b").2.2.2.1 (by decide)).1,
   ((toggle_task_selection_spec (TaskManager.mk [("a", Task.mk "a" "Buy milk" false)]
      [("a", false)] true) "b").2.2.1 (by decide)).2,
   (toggle_task_selection_spec (TaskManager.mk [("a", Task.mk "a" "Buy milk" false)]
      [("a", false)] true) "b").2.1 "a" (by decide)⟩

theorem umap_find_map_false (m : List (String × Bool)) (k : String) :
    umap_find (m.map (fun e => (e.1, false))) k = (umap_find m k).map (fun _ => false) := by
  induction m with
  | nil => rfl
  | cons e rest ih =>
      obtain ⟨k1, v1⟩ := e
      by_cases h : k1 = k
      · simp [umap_find, h]
      · simp [umap_find, h, ih]

/-- C13: for every store state, after `clear_selection()` `has_selection()`
is false, `get_selected_task_ids()` is empty and `is_task_selected(id)` is
false for every id, while the keys of the selection mapping are the same (no
entry removed) and the task mapping is unchanged. -/
theorem clear_selection_spec (tm : TaskManager) :
    tm.clear_selection.has_selection = false ∧
    tm.clear_selection.get_selected_task_ids = [] ∧
    (∀ task_id, tm.clear_selection.is_task_selected task_id = false) ∧
    umap_keys tm.clear_selection.task_selection_states = umap_keys tm.task_selection_states ∧
    tm.clear_selection.tasks = tm.tasks := by
  refine ⟨?_, clear_selection_none_selected tm, ?_, ?_, rfl⟩
  · apply has_selection_eq_false
    intro e he
    simp only [TaskManager.clear_selection, List.mem_map] at he
    obtain ⟨x, _, rfl⟩ := he
    rfl
  · intro task_id
    simp only [TaskManager.is_task_selected, TaskManager.clear_selection]
    rw [umap_find_map_false]
    cases umap_find tm.task_selection_states task_id <;> rfl
  · simp [TaskManager.clear_selection, umap_keys]

/-! ## Keys of the task mapping and ids of the tasks -/

/-- C16: in every state reached from `load()` by a sequence of `add_task`,
`delete_task` and `toggle_task_status` calls (selection calls may be
interleaved), each entry of the task mapping holds a task whose id is its key;
the tasks of `get_all_tasks()` have pairwise distinct ids, and
`contains_task(id)` holds exactly when one of them has that id. -/
theorem key_id_consistency (tm0 : TaskManager) (d0 : Disk) (ops : List Op) :
    (∀ e, e ∈ (run (tm0.load d0) ops).1.tasks → e.2.id = e.1) ∧
    (∀ k t, umap_find (run (tm0.load d0) ops).1.tasks k = some t → t.id = k) ∧
    ((run (tm0.load d0) ops).1.get_all_tasks.map Task.id).Nodup ∧
    (∀ task_id, (run (tm0.load d0) ops).1.contains_task task_id = true ↔
      ∃ t, t ∈ (run (tm0.load d0) ops).1.get_all_tasks ∧ t.id = task_id) := by
  have hk : well_keyed (run (tm0.load d0) ops).1.tasks :=
    well_keyed_run ops _ (well_keyed_load tm0 d0)
  generalize (run (tm0.load d0) ops).1 = tm at hk
  have hids : tm.get_all_tasks.map Task.id = umap_keys tm.tasks := by
    simp only [TaskManager.get_all_tasks, umap_keys, List.map_map]
    apply List.map_congr_left
    intro e he
    exact hk.2 e he
  refine ⟨hk.2, ?_, ?_, ?_⟩
  · intro k t h
    exact hk.2 (k, t) (umap_find_mem _ _ _ h)
  · rw [hids]; exact hk.1
  · intro task_id
    simp only [TaskManager.contains_task]
    rw [umap_find_isSome_iff, ← hids, List.mem_map]

/-! ## load: entries of the wrong type -/

theorem init_calls_call (u : Ui) (op : Op) :
    init_calls (u.call op).calls = init_calls u.calls + init_calls [op] := by
  simp [Ui.call, init_calls, List.countP_append]

theorem init_calls_checkbox_loop (inp : ModalInput) (tasks : List Task) (u : Ui) :
    init_calls (checkbox_loop inp tasks u).calls = init_calls u.calls := by
  unfold checkbox_loop
  induction tasks generalizing u with
  | nil => rfl
  | cons t rest ih =>
      simp only [List.foldl_cons]
      rw [ih]
      split
      · rw [init_calls_call]; rfl
      · rfl

theorem init_calls_fold (f : String → Op) (hf : ∀ x, init_calls [f x] = 0)
    (ids : List String) (u : Ui) :
    init_calls (ids.foldl (fun v x => v.call (f x)) u).calls = init_calls u.calls := by
  induction ids generalizing u with
  | nil => rfl
  | cons x rest ih =>
      simp only [List.foldl_cons]
      rw [ih, init_calls_call, hf]
      rfl

theorem init_calls_DrawTaskSelectionModal (title : String) (inp : ModalInput) (flag : Bool)
    (u : Ui) :
    init_calls (DrawTaskSelectionModal title inp flag u).2.2.calls
      = init_calls u.calls + (if flag then 1 else 0) := by
  unfold DrawTaskSelectionModal
  simp only []
  have h1 : init_calls (if flag = true then (OpenPopup u title).call Op.init_selection_states
      else u).calls = init_calls u.calls + (if flag then 1 else 0) := by
    cases flag
    · rfl
    · simp only [if_true]
      rw [init_calls_call]
      rfl
  generalize (if flag = true then (OpenPopup u title).call Op.init_selection_states else u) = u1
    at h1 ⊢
  split
  · rw [← h1]
    have e : ∀ (b : Bool) (v : Ui),
        init_calls (if b = true then CloseCurrentPopup (v.call Op.clear_selection) title
          else v).calls = init_calls v.calls := by
      intro b v
      cases b
      · rfl
      · simp only [if_true]
        show init_calls (v.call Op.clear_selection).calls = _
        rw [init_calls_call]; rfl
    have e2 : ∀ (b : Bool) (v : Ui),
        init_calls (if b = true then CloseCurrentPopup v title else v).calls
          = init_calls v.calls := by
      intro b v
      cases b <;> rfl
    rw [e, e2, init_calls_checkbox_loop, init_calls_checkbox_loop, e]
  · exact h1


theorem init_calls_handle_mark_task_modal (inp : ModalInput) (u : Ui) :
    init_calls (handle_mark_task_modal inp u).calls = init_calls u.calls := by
  unfold handle_mark_task_modal
  simp only []
  have hflag : (if u.state.show_mark_task_modal = true then
      { OpenPopup u "Mark Tasks" with state := { u.state with show_mark_task_modal := false } }
    else u).state.show_mark_task_modal = false := by
    cases h : u.state.show_mark_task_modal
    · simp [h]
    · simp
  have hcalls : (if u.state.show_mark_task_modal = true then
      { OpenPopup u "Mark Tasks" with state := { u.state with show_mark_task_modal := false } }
    else u).calls = u.calls := by
    split <;> rfl
  generalize (if u.state.show_mark_task_modal = true then
      { OpenPopup u "Mark Tasks" with state := { u.state with show_mark_task_modal := false } }
    else u) = u1 at hflag hcalls ⊢
  rw [hflag]
  have hd := init_calls_DrawTaskSelectionModal "Mark Tasks" inp false u1
  generalize DrawTaskSelectionModal "Mark Tasks" inp false u1 = r at hd ⊢
  simp only [Bool.false_eq_true, if_false, Nat.add_zero] at hd
  split
  · rw [init_calls_call, init_calls_fold (fun x => Op.toggle_task_status x) (fun _ => rfl)]
    simp only []
    rw [hd, hcalls]
    rfl
  · simp only []
    rw [hd, hcalls]

theorem init_calls_handle_delete_task_modal (inp : ModalInput) (u : Ui) :
    init_calls (handle_delete_task_modal inp u).calls = init_calls u.calls := by
  unfold handle_delete_task_modal
  simp only []
  have hflag : (if u.state.show_mark_delete_task_modal = true then
      { OpenPopup u "Delete Tasks" with
        state := { u.state with show_mark_delete_task_modal := false } }
    else u).state.show_mark_delete_task_modal = false := by
    cases h : u.state.show_mark_delete_task_modal
    · simp [h]
    · simp
  have hcalls : (if u.state.show_mark_delete_task_modal = true then
      { OpenPopup u "Delete Tasks" with
        state := { u.state with show_mark_delete_task_modal := false } }
    else u).calls = u.calls := by
    split <;> rfl
  generalize (if u.state.show_mark_delete_task_modal = true then
      { OpenPopup u "Delete Tasks" with
        state := { u.state with show_mark_delete_task_modal := false } }
    else u) = u1 at hflag hcalls ⊢
  rw [hflag]
  have hd := init_calls_DrawTaskSelectionModal "Delete Tasks" inp false u1
  generalize DrawTaskSelectionModal "Delete Tasks" inp false u1 = r at hd ⊢
  simp only [Bool.false_eq_true, if_false, Nat.add_zero] at hd
  split
  · rw [init_calls_call, init_calls_fold (fun x => Op.delete_task x) (fun _ => rfl)]
    simp only []
    rw [hd, hcalls]
    rfl
  · simp only []
    rw [hd, hcalls]

theorem init_calls_append (a b : List Op) :
    init_calls (a ++ b) = init_calls a + init_calls b := by
  simp [init_calls, List.countP_append]

theorem init_calls_add_dialog_submit (inp : AddInput) (u : Ui) :
    init_calls (add_dialog_submit inp u).calls = init_calls u.calls := by
  unfold add_dialog_submit
  simp only []
  have h4c : (InputText inp u).calls = u.calls := by
    unfold InputText
    cases inp.typed <;> rfl
  rw [← h4c]
  generalize InputText inp u = u4
  have h0 : ∀ title os, init_calls [Op.add_task title os] = 0 := fun _ _ => rfl
  have h1 : ∀ t1 o1 t2 o2, init_calls [Op.add_task t1 o1, Op.add_task t2 o2] = 0 :=
    fun _ _ _ _ => rfl
  by_cases hl : u4.state.task_input_buffer.length > 0
  · have hl2 : ¬ u4.state.task_input_buffer.length = 0 := by omega
    cases inp.enter <;> cases inp.confirm <;> cases inp.cancel <;>
      simp [hl, hl2, CloseCurrentPopup, Ui.call, init_calls_append, h0, h1]
  · have hl2 : u4.state.task_input_buffer.length = 0 := by omega
    cases inp.enter <;> cases inp.confirm <;> cases inp.cancel <;>
      simp [hl2, CloseCurrentPopup, Ui.call]

/-! ## main.cpp: the add-task dialog -/

theorem added_titles_append (a b : List Op) :
    added_titles (a ++ b) = added_titles a ++ added_titles b := by
  simp [added_titles, List.filterMap_append]

theorem added_titles_add_task (title : String) (os : OsCalls) :
    added_titles [Op.add_task title os] = [title] := rfl

theorem added_titles_nil : added_titles [] = [] := rfl

theorem added_titles_cons_add_task (title : String) (os : OsCalls) (rest : List Op) :
    added_titles (Op.add_task title os :: rest) = title :: added_titles rest := rfl

theorem add_dialog_submit_titles (inp : AddInput) (u : Ui) :
    (add_dialog_submit inp u).state.task_input_buffer
      = (InputText inp u).state.task_input_buffer ∧
    added_titles (add_dialog_submit inp u).calls
      = added_titles u.calls ++
        ((if inp.enter && decide ((InputText inp u).state.task_input_buffer.length > 0)
          then [(InputText inp u).state.task_input_buffer] else []) ++
         (if inp.confirm && decide ((InputText inp u).state.task_input_buffer.length > 0)
          then [(InputText inp u).state.task_input_buffer] else [])) := by
  unfold add_dialog_submit
  simp only []
  have h4c : (InputText inp u).calls = u.calls := by
    unfold InputText
    cases inp.typed <;> rfl
  rw [← h4c]
  generalize InputText inp u = u4
  by_cases hl : u4.state.task_input_buffer.length > 0
  · have hl2 : ¬ u4.state.task_input_buffer.length = 0 := by omega
    cases inp.enter <;> cases inp.confirm <;> cases inp.cancel <;>
      simp [hl, hl2, CloseCurrentPopup, Ui.call, added_titles_append, added_titles_add_task,
        added_titles_cons_add_task, added_titles_nil]
  · have hl2 : u4.state.task_input_buffer.length = 0 := by omega
    cases inp.enter <;> cases inp.confirm <;> cases inp.cancel <;>
      simp [hl2, CloseCurrentPopup, Ui.call]

theorem handle_add_task_modal_cases (inp : AddInput) (u : Ui) :
    (handle_add_task_modal inp u).calls = u.calls ∨
    ∃ u3, u3.calls = u.calls ∧ handle_add_task_modal inp u = add_dialog_submit inp u3 := by
  unfold handle_add_task_modal
  simp only []
  have hc1 : (if u.state.show_add_task_modal = true then
      { OpenPopup u "Add New Task" with state := { u.state with show_add_task_modal := false } }
    else u).calls = u.calls := by
    split <;> rfl
  generalize (if u.state.show_add_task_modal = true then
      { OpenPopup u "Add New Task" with state := { u.state with show_add_task_modal := false } }
    else u) = u1 at hc1 ⊢
  by_cases hopen : BeginPopupModal u1 "Add New Task" = true
  · right
    simp only [hopen, if_true]
    refine ⟨_, ?_, rfl⟩
    rw [← hc1]
    cases inp.escape
    · simp only [Bool.false_eq_true, if_false]
      split <;> rfl
    · simp only [if_true]
      split <;> rfl
  · left
    simp only [hopen, if_false]
    exact hc1

theorem handle_add_task_modal_titles (inp : AddInput) (u : Ui) (title : String)
    (h : title ∈ added_titles (handle_add_task_modal inp u).calls) :
    title ∈ added_titles u.calls ∨
    (title ≠ "" ∧ title = (handle_add_task_modal inp u).state.task_input_buffer) := by
  rcases handle_add_task_modal_cases inp u with hc | ⟨u3, hc3, he⟩
  · rw [hc] at h
    exact Or.inl h
  · rw [he] at h ⊢
    obtain ⟨hb, ht⟩ := add_dialog_submit_titles inp u3
    rw [ht, hc3] at h
    rw [hb]
    have hne : ∀ x : String, x.length > 0 → x ≠ "" := by
      intro x hx hc
      rw [hc] at hx
      exact absurd hx (by decide)
    rcases List.mem_append.mp h with h1 | h1
    · exact Or.inl h1
    · right
      rcases List.mem_append.mp h1 with h2 | h2
      · split at h2
        · rename_i hcond
          simp only [Bool.and_eq_true, decide_eq_true_eq] at hcond
          have := List.mem_singleton.mp h2
          exact ⟨by rw [this]; exact hne _ hcond.2, this⟩
        · cases h2
      · split at h2
        · rename_i hcond
          simp only [Bool.and_eq_true, decide_eq_true_eq] at hcond
          have := List.mem_singleton.mp h2
          exact ⟨by rw [this]; exact hne _ hcond.2, this⟩
        · cases h2

theorem init_calls_main_frame (inp : FrameInput) (u : Ui) :
    init_calls (main_frame inp u).calls = init_calls u.calls := by
  unfold main_frame
  have hadd : ∀ v, init_calls (handle_add_task_modal inp.add v).calls = init_calls v.calls := by
    intro v
    rcases handle_add_task_modal_cases inp.add v with hc | ⟨u3, hc3, he⟩
    · rw [hc]
    · rw [he, init_calls_add_dialog_submit, hc3]
  rw [hadd, init_calls_handle_delete_task_modal, init_calls_handle_mark_task_modal]
  rfl

/-- C14, what the code does: in no frame does the main loop call
`init_selection_states()`.  `DrawTaskSelectionModal` makes the call exactly
when it is entered with its show flag set, but `main` clears the flag just
before each of its two calls of the function.  In the frame in which the
`Mark Task` (or `Delete Task`) button sets the flag, the popup is opened, the
call is made zero times and the selection mapping has no entry for the
existing task `a`. -/
theorem dialog_open_skips_init :
    (∀ inp u, init_calls (main_frame inp u).calls = init_calls u.calls) ∧
    (∀ title inp flag u, init_calls (DrawTaskSelectionModal title inp flag u).2.2.calls
      = init_calls u.calls + (if flag then 1 else 0)) ∧
    ((control_panel { idle_frame with mark_task_button := true }
        start_ui).state.show_mark_task_modal = true ∧
      (main_frame { idle_frame with mark_task_button := true } start_ui).open_popups
        = ["Mark Tasks"] ∧
      init_calls (main_frame { idle_frame with mark_task_button := true } start_ui).calls = 0 ∧
      (main_frame { idle_frame with mark_task_button := true } start_ui).store.1.contains_task
        "a" = true ∧
      (main_frame { idle_frame with mark_task_button := true }
        start_ui).store.1.task_selection_states = []) ∧
    ((control_panel { idle_frame with delete_task_button := true }
        start_ui).state.show_mark_delete_task_modal = true ∧
      (main_frame { idle_frame with delete_task_button := true } start_ui).open_popups
        = ["Delete Tasks"] ∧
      init_calls (main_frame { idle_frame with delete_task_button := true } start_ui).calls = 0 ∧
      (main_frame { idle_frame with delete_task_button := true }
        start_ui).store.1.task_selection_states = []) := by
  refine ⟨init_calls_main_frame, init_calls_DrawTaskSelectionModal, ?_, ?_⟩
  · decide
  · decide

/-- C15, counterexample: the add-task dialog is opened, the user types
` Buy milk ` (with a leading and a trailing blank) and presses Enter:
`add_task` receives the text as typed; with three blanks typed and a click on
Confirm, `add_task` receives the three blanks.  Neither title is trimmed. -/
theorem add_dialog_title_counterexample :
    (added_titles (main_frame
        { idle_frame with add := { idle_add with typed := some " Buy milk ", enter := true } }
        (main_frame { idle_frame with add_new_task_button := true } start_ui)).calls
      = [" Buy milk "] ∧ is_trimmed_title " Buy milk " = false) ∧
    (added_titles (main_frame
        { idle_frame with add := { idle_add with typed := some "   ", confirm := true } }
        (main_frame { idle_frame with add_new_task_button := true } start_ui)).calls
      = ["   "] ∧ is_trimmed_title "   " = false) := by
  decide

/-- C15, amended: for every content of the input buffer and every state of the
add-task dialog, a title that the dialog's submit handling (Enter in the text
field or the Confirm button) passes to `add_task` during a frame is the content
of the input buffer and is not empty. -/
theorem add_dialog_title_non_empty (inp : AddInput) (u : Ui) (title : String)
    (h : title ∈ added_titles (handle_add_task_modal inp { u with calls := [] }).calls) :
    title ≠ "" ∧
    title = (handle_add_task_modal inp { u with calls := [] }).state.task_input_buffer := by
  rcases handle_add_task_modal_titles inp { u with calls := [] } title h with h1 | h1
  · cases h1
  · exact h1

/-- Witness of C15 amended: the dialog is open, the user types `Buy milk` and
presses Enter. -/
theorem add_dialog_title_non_empty_witness :
    "Buy milk" ≠ "" ∧
    "Buy milk" = (handle_add_task_modal { idle_add with typed := some "Buy milk", enter := true }
      { (main_frame { idle_frame with add_new_task_button := true } start_ui) with
        calls := [] }).state.task_input_buffer :=
  add_dialog_title_non_empty { idle_add with typed := some "Buy milk", enter := true }
    (main_frame { idle_frame with add_new_task_button := true } start_ui) "Buy milk"
    (by decide)

end TodoApp
